import Mathlib

/-!
# slurmd job records and the migration scheduler plugin

A shallow embedding of `src/slurmd/job.c` (construction, signalling and teardown of
`slurmd_job_t`) and of `src/plugins/sched/migration/migration_wrapper.c` (the plugin
start/stop hooks), followed by theorems about them.

Conventions of the embedding.

* C pointers that may be NULL are `Option`; a heap object carries the handle (`addr`)
  under which it was allocated.
* Every function that touches the outside world threads a `World`: the allocation
  ledger, the shared step-state table and the trace of calls made to the system.
* A result of `none` at the outer level means that the C program has no defined
  continuation there (a failed `xassert`, a read outside an object).
* Values of C type `int` are `Int`; conversions into `int` wrap at 32 bits (`to_int`).
* Arrays received through a bare pointer (`char **env`, `uint32_t *gid`) are functions
  from the index to the element: C gives them no length.
-/

namespace Slurmd

/-! ## System constants -/

/-- Signal number of `SIGKILL` from `<signal.h>`. -/
def SIGKILL : Int := 9

/-- The errno value `ESRCH` (no such process). -/
def ESRCH : Nat := 3

/-- The errno value `EEXIST` (file exists). -/
def EEXIST : Nat := 17

/-- Conversion of an unsigned value into a 32-bit C `int` (two's complement wrap). -/
def to_int (v : Nat) : Int :=
  if v % 4294967296 < 2147483648 then ((v % 4294967296 : Nat) : Int)
  else ((v % 4294967296 : Nat) : Int) - 4294967296

/-! ## The world: allocation ledger, step-state table, call trace -/

/-- What a ledger entry stands for. -/
inductive Kind
  | job | passwd | str | vec | list | srun | key | task | mutex | fd | obj
  deriving DecidableEq, Repr

/-- Calls to the system that the embedding records, in the order they happen. -/
inductive Event
  | error (fmt : String) (args : List Int)
  | kill (pid : Int) (sig : Int)
  | shm_lock (jobid : Nat) (stepid : Nat)
  | shm_unlock (jobid : Nat) (stepid : Nat)
  deriving DecidableEq, Repr

/-- Modelled from the spec: one entry of the step-state table of `shm.c` (absent from the
sources), reduced to its coarse state value and whether the entry is held locked. -/
structure shm_step where
  state : Nat
  locked : Bool
  deriving DecidableEq, Repr

/-- The state threaded through every operation. `live` is the ledger of outstanding
resources (handle and kind), `bad_free` counts releases of something not outstanding,
`shm` is the step-state table keyed by job id and step id. -/
structure World where
  next : Nat
  live : List (Nat × Kind)
  bad_free : Nat
  shm : Nat → Nat → Option shm_step
  trace : List Event

/-- Allocation (`xmalloc`, `list_create`, a mutex, a descriptor): a fresh handle is
entered in the ledger. -/
def xmalloc (k : Kind) (w : World) : Nat × World :=
  (w.next, { w with next := w.next + 1, live := (w.next, k) :: w.live })

/-- Release of a non-NULL handle (`xfree`, `close`, ...): the entry leaves the ledger;
releasing something that is not outstanding is counted in `bad_free`. -/
def release (a : Nat) (k : Kind) (w : World) : World :=
  if (a, k) ∈ w.live then { w with live := w.live.erase (a, k) }
  else { w with bad_free := w.bad_free + 1 }

/-- Number of outstanding resources of a kind. -/
def outstanding (k : Kind) (w : World) : Nat :=
  w.live.countP (fun e => decide (e.2 = k))

/-- The call `error(fmt, args...)` of `log.h`. -/
def log_error (fmt : String) (args : List Int) (w : World) : World :=
  { w with trace := w.trace ++ [Event.error fmt args] }

/-! ## Data model of `job.h` (fields as used by `job.c`) -/

/-- A heap block holding a sequence: an array from `xmalloc` or a `List` of `list.h`. -/
structure Blk (α : Type) where
  addr : Nat
  elems : List α

/-- A heap string (`xstrdup`, `fname_create`). -/
structure XStr where
  addr : Nat
  val : String
  deriving DecidableEq, Repr

/-- The static record returned by `getpwuid`. -/
structure passwd_ent where
  pw_name : String
  pw_passwd : String
  pw_gecos : String
  pw_shell : String
  pw_dir : String
  pw_uid : Nat
  pw_gid : Nat

/-- The heap copy of a `struct passwd` built by `_pwd_create`. -/
structure passwd where
  addr : Nat
  pw_name : Option XStr
  pw_passwd : Option XStr
  pw_gecos : Option XStr
  pw_shell : Option XStr
  pw_dir : Option XStr
  pw_uid : Nat
  pw_gid : Nat

/-- A network address (`slurm_addr`). -/
structure slurm_addr where
  host : Nat
  port : Nat
  deriving DecidableEq, Repr

/-- Modelled from the spec: the task lifecycle states of `job.h` (absent from the
sources); `job.c` only names `SLURMD_TASK_INIT`. -/
inductive slurmd_task_state_t
  | SLURMD_TASK_INIT | SLURMD_TASK_STARTING | SLURMD_TASK_RUNNING
  | SLURMD_TASK_EXITED | SLURMD_TASK_KILLED
  deriving DecidableEq, Repr

/-- The key of an srun endpoint: `SLURM_KEY_SIZE` bytes. -/
structure srun_key_t where
  addr : Nat
  data : List Nat

/-- An srun endpoint (`struct srun_info`). -/
structure srun_info where
  addr : Nat
  key : Option srun_key_t
  resp_addr : slurm_addr
  ioaddr : slurm_addr
  ofname : Option XStr
  efname : Option XStr
  ifname : Option XStr

/-- Per-task record (`task_info_t`). `mutex` is the handle of the task's lock;
`srun_list` holds references (handles) to srun endpoints. -/
structure task_info_t where
  addr : Nat
  mutex : Nat
  state : slurmd_task_state_t
  id : Int
  gid : Int
  pid : Int
  pin : Int × Int
  pout : Int × Int
  perr : Int × Int
  estatus : Int
  tin : Option Nat
  tout : Option Nat
  terr : Option Nat
  srun_list : Option (Blk Nat)

/-- The job record (`slurmd_job_t`). -/
structure slurmd_job_t where
  addr : Nat
  jobid : Nat
  stepid : Nat
  uid : Nat
  pwd : Option passwd
  nprocs : Nat
  nnodes : Nat
  nodeid : Nat
  ntasks : Nat
  debug : Nat
  timelimit : Nat
  task_flags : Nat
  envc : Nat
  env : Option (Blk (Option XStr))
  argc : Nat
  argv : Option (Blk (Option XStr))
  cwd : Option XStr
  objs : Option (Blk Nat)
  sruns : Option (Blk srun_info)
  task : Option (Blk task_info_t)
  fdpair : Int × Int
  batch : Bool

/-- The job record as `xmalloc` returns it: every field zero. -/
def zero_job (a : Nat) : slurmd_job_t :=
  { addr := a, jobid := 0, stepid := 0, uid := 0, pwd := none, nprocs := 0, nnodes := 0,
    nodeid := 0, ntasks := 0, debug := 0, timelimit := 0, task_flags := 0, envc := 0,
    env := none, argc := 0, argv := none, cwd := none, objs := none, sruns := none,
    task := none, fdpair := (0, 0), batch := false }

/-- What `job.c` takes from its surroundings: header constants that are not among the
sources and the behaviour of the operating system and of the collaborating modules.
`kill` answers `none` for success and `some errno` for failure, and may depend on the
calls made so far. -/
structure Sys where
  NO_VAL : Nat
  SLURM_KEY_SIZE : Nat
  SLURMD_JOB_STARTING : Nat
  SLURMD_JOB_ENDING : Nat
  getpwuid : Nat → Option passwd_ent
  pipe_ok : Bool
  kill : List Event → Int → Int → Option Nat
  slurm_set_addr : slurm_addr → Nat → slurm_addr
  fname_create : slurmd_job_t → String → Int → String

/-! ## Signalling: `job_signal_tasks`, `job_kill` -/

/-- Modelled from the spec: `shm_lock_step_state` of `shm.c` (absent from the sources):
acquires the entry for the key and hands it out, or answers NULL when the key is
unknown. -/
def shm_lock_step_state (jobid stepid : Nat) (w : World) : Option shm_step × World :=
  let w1 := { w with trace := w.trace ++ [Event.shm_lock jobid stepid] }
  match w.shm jobid stepid with
  | none => (none, w1)
  | some e =>
    (some e, { w1 with shm := fun j s =>
      if j = jobid ∧ s = stepid then some { e with locked := true } else w1.shm j s })

/-- Modelled from the spec: `shm_unlock_step_state` of `shm.c` (absent from the
sources): releases the exclusive access to the entry. -/
def shm_unlock_step_state (jobid stepid : Nat) (w : World) : World :=
  { w with
    trace := w.trace ++ [Event.shm_unlock jobid stepid],
    shm := fun j s =>
      if j = jobid ∧ s = stepid then (w.shm j s).map (fun e => { e with locked := false })
      else w.shm j s }

/-- The store `*state = v` through the pointer handed out by `shm_lock_step_state`. -/
def shm_store_state (jobid stepid : Nat) (v : Nat) (w : World) : World :=
  { w with shm := fun j s =>
      if j = jobid ∧ s = stepid then (w.shm j s).map (fun e => { e with state := v })
      else w.shm j s }

/-- One `kill(pid, signal)` call followed by the errno test of `job_signal_tasks`. -/
def kill_task (sys : Sys) (job : slurmd_job_t) (n : Nat) (pid : Int) (signal : Int)
    (w : World) : World :=
  let r := sys.kill w.trace pid signal
  let w1 := { w with trace := w.trace ++ [Event.kill pid signal] }
  match r with
  | none => w1
  | some errno =>
    if errno ≠ EEXIST then
      log_error "job %d.%d: kill task %d: %m" [(job.jobid : Int), (job.stepid : Int), (n : Int)] w1
    else w1

/-- The loop `while (--n >= 0)` of `job_signal_tasks`; the first argument is the value
of `n` before the decrement. -/
def job_signal_tasks_loop (sys : Sys) (job : slurmd_job_t) (signal : Int) :
    Nat → World → Option World
  | 0, w => some w
  | n + 1, w =>
    match job.task with
    | none => none
    | some tv =>
      match tv.elems[n]? with
      | none => none
      | some t => job_signal_tasks_loop sys job signal n (kill_task sys job n t.pid signal w)

/-- The function `job_signal_tasks(job, signal)`. -/
def job_signal_tasks (sys : Sys) (job : slurmd_job_t) (signal : Int) (w : World) :
    Option World :=
  job_signal_tasks_loop sys job signal (to_int job.ntasks).toNat w

/-- The function `job_kill(job, rc)`. -/
def job_kill (sys : Sys) (job : slurmd_job_t) (rc : Int) (w : World) : Option World :=
  match shm_lock_step_state job.jobid job.stepid w with
  | (none, w1) => some w1
  | (some e, w1) =>
    let swept :=
      if e.state > sys.SLURMD_JOB_STARTING then job_signal_tasks sys job SIGKILL w1
      else some w1
    match swept with
    | none => none
    | some w2 =>
      let w3 := shm_store_state job.jobid job.stepid sys.SLURMD_JOB_ENDING w2
      some (shm_unlock_step_state job.jobid job.stepid w3)

/-- The `kill` calls of a trace, in order. -/
def kills_of : List Event → List (Int × Int)
  | [] => []
  | Event.kill p s :: es => (p, s) :: kills_of es
  | _ :: es => kills_of es

/-- The `error` calls of a trace, in order. -/
def errors_of : List Event → List (String × List Int)
  | [] => []
  | Event.error f a :: es => (f, a) :: errors_of es
  | _ :: es => errors_of es

/-- The `shm_unlock_step_state` calls of a trace, in order. -/
def unlocks_of : List Event → List (Nat × Nat)
  | [] => []
  | Event.shm_unlock j s :: es => (j, s) :: unlocks_of es
  | _ :: es => unlocks_of es

/-! ## Messages (fields as read by `job.c`) -/

/-- The credential carried by a launch request. -/
structure slurm_cred where
  expiration_time : Nat
  signature : Nat → Nat

/-- The launch request (`launch_tasks_request_msg_t`). -/
structure launch_tasks_request_msg_t where
  job_id : Nat
  job_step_id : Nat
  uid : Nat
  nprocs : Nat
  nnodes : Nat
  srun_node_id : Nat
  tasks_to_launch : Nat
  slurmd_debug : Nat
  task_flags : Nat
  credential : slurm_cred
  envc : Nat
  env : Nat → String
  argc : Nat
  argv : Nat → String
  cwd : Option String
  resp_port : Nat
  io_port : Nat
  ofname : Option String
  efname : Option String
  ifname : Option String
  global_task_ids : Nat → Nat

/-- The batch request (`batch_job_launch_msg_t`). -/
structure batch_job_launch_msg_t where
  job_id : Nat
  uid : Nat
  work_dir : Option String
  envc : Nat
  environment : Nat → String
  out : Option String
  err : Option String
  argc : Nat

/-! ## Construction -/

/-- The function `xstrdup`: NULL for NULL, otherwise a fresh heap copy. -/
def xstrdup (s : Option String) (w : World) : Option XStr × World :=
  match s with
  | none => (none, w)
  | some v => ((some { addr := w.next, val := v }), (xmalloc Kind.str w).2)

/-- The macro `xfree(p)`: nothing for NULL, otherwise the release of the block. -/
def xfree (p : Option Nat) (k : Kind) (w : World) : World :=
  match p with
  | none => w
  | some a => release a k w

/-- The function `_pwd_create(uid)`. -/
def _pwd_create (sys : Sys) (uid : Nat) (w : World) : Option passwd × World :=
  let a := w.next
  let w0 := (xmalloc Kind.passwd w).2
  match sys.getpwuid uid with
  | none => (none, xfree (some a) Kind.passwd w0)
  | some ppwd =>
    let r1 := xstrdup (some ppwd.pw_name) w0
    let r2 := xstrdup (some ppwd.pw_passwd) r1.2
    let r3 := xstrdup (some ppwd.pw_gecos) r2.2
    let r4 := xstrdup (some ppwd.pw_shell) r3.2
    let r5 := xstrdup (some ppwd.pw_dir) r4.2
    (some { addr := a, pw_name := r1.1, pw_passwd := r2.1, pw_gecos := r3.1,
            pw_shell := r4.1, pw_dir := r5.1, pw_uid := ppwd.pw_uid, pw_gid := ppwd.pw_gid },
     r5.2)

/-- The function `_pwd_destroy(pwd)`. -/
def _pwd_destroy (pwd : Option passwd) (w : World) : World :=
  match pwd with
  | none => w
  | some p =>
    let w1 := xfree (p.pw_name.map XStr.addr) Kind.str w
    let w2 := xfree (p.pw_passwd.map XStr.addr) Kind.str w1
    let w3 := xfree (p.pw_gecos.map XStr.addr) Kind.str w2
    let w4 := xfree (p.pw_shell.map XStr.addr) Kind.str w3
    let w5 := xfree (p.pw_dir.map XStr.addr) Kind.str w4
    xfree (some p.addr) Kind.passwd w5

/-- The numeric value of a pointer: NULL is 0, an object is its handle. -/
def ptr_addr (p : Option passwd) : Nat :=
  match p with
  | none => 0
  | some x => x.addr

/-- The test `(pwd = _pwd_create(...)) < 0` of both constructors: a pointer ordered
against the null pointer constant, i.e. an unsigned address below 0. -/
def pwd_lt_zero (p : Option passwd) : Bool :=
  decide (ptr_addr p < 0)

/-- The loop `while (--n >= 0) dst[n] = xstrdup(src[n])` of `_array_copy`. -/
def _array_copy_loop (src : Nat → String) :
    Nat → List (Option XStr) → World → List (Option XStr) × World
  | 0, dst, w => (dst, w)
  | n + 1, dst, w =>
    let r := xstrdup (some (src n)) w
    _array_copy_loop src n (dst.set n r.1) r.2

/-- The function `_array_copy(n, src)`: a block of `n + 1` slots, the last one NULL.
A negative `n` makes `dst[n] = NULL` a store outside the block, and for `n = INT_MAX`
the sum `n + 1` of the size `(n+1) * sizeof(char *)` overflows `int`: in both cases no
block results. -/
def _array_copy (n : Int) (src : Nat → String) (w : World) :
    Option (Blk (Option XStr) × World) :=
  if n < 0 ∨ 2147483647 ≤ n then none
  else
    let a := w.next
    let w0 := (xmalloc Kind.vec w).2
    let r := _array_copy_loop src n.toNat (List.replicate (n.toNat + 1) none) w0
    some ({ addr := a, elems := r.1 }, r.2)

/-- The function `list_create(f)`; the destructor `f` is supplied again where the list
is destroyed. -/
def list_create {α : Type} (w : World) : Blk α × World :=
  ({ addr := w.next, elems := [] }, (xmalloc Kind.list w).2)

/-- The function `list_append(l, x)`. -/
def list_append {α : Type} (l : Blk α) (x : α) : Blk α :=
  { l with elems := l.elems ++ [x] }

/-- The function `srun_info_create(keydata, resp_addr, ioaddr)`. -/
def srun_info_create (sys : Sys) (keydata : Option (Nat → Nat))
    (resp_addr : Option slurm_addr) (ioaddr : Option slurm_addr) (w : World) :
    srun_info × World :=
  let a := w.next
  let w1 := (xmalloc Kind.srun w).2
  let ka := w1.next
  let w2 := (xmalloc Kind.key w1).2
  let data := match keydata with
    | none => List.replicate sys.SLURM_KEY_SIZE 0
    | some kd => (List.range sys.SLURM_KEY_SIZE).map kd
  ({ addr := a, key := some { addr := ka, data := data },
     resp_addr := resp_addr.getD { host := 0, port := 0 },
     ioaddr := ioaddr.getD { host := 0, port := 0 },
     ofname := none, efname := none, ifname := none }, w2)

/-- The function `task_info_create(taskid, gtaskid)`; the two `xassert`s stop the
program when they fail. Locking and unlocking the fresh mutex leaves no trace. -/
def task_info_create (taskid : Int) (gtaskid : Int) (w : World) :
    Option (task_info_t × World) :=
  let a := w.next
  let w1 := (xmalloc Kind.task w).2
  if taskid < 0 then none
  else if gtaskid < 0 then none
  else
    let m := w1.next
    let w2 := (xmalloc Kind.mutex w1).2
    let l : Blk Nat × World := list_create w2
    some ({ addr := a, mutex := m, state := slurmd_task_state_t.SLURMD_TASK_INIT,
            id := taskid, gid := gtaskid, pid := -1, pin := (-1, -1), pout := (-1, -1),
            perr := (-1, -1), estatus := -1, tin := none, tout := none, terr := none,
            srun_list := some l.1 }, l.2)

/-- The loop `for (i = 0; i < n; i++) job->task[i] = task_info_create(i, gid[i])`:
the first argument is `n - i`, the third the slots filled so far. -/
def _job_init_task_info_loop (gid : Nat → Nat) :
    Nat → Nat → List task_info_t → World → Option (List task_info_t × World)
  | 0, _, acc, w => some (acc, w)
  | k + 1, i, acc, w =>
    match task_info_create (i : Int) (to_int (gid i)) w with
    | none => none
    | some r => _job_init_task_info_loop gid k (i + 1) (acc ++ [r.1]) r.2

/-- The function `_job_init_task_info(job, gid)`. With `int n = job->ntasks` negative
the size `n * sizeof(task_info_t *)` is beyond what `xmalloc` can give: the program
stops there. -/
def _job_init_task_info (job : slurmd_job_t) (gid : Nat → Nat) (w : World) :
    Option (slurmd_job_t × World) :=
  let n := to_int job.ntasks
  if n < 0 then none
  else
    let a := w.next
    let w1 := (xmalloc Kind.vec w).2
    match _job_init_task_info_loop gid n.toNat 0 [] w1 with
    | none => none
    | some r => some ({ job with task := some { addr := a, elems := r.1 } }, r.2)

/-- The call `pipe(job->fdpair)`: on success two descriptors are outstanding. -/
def pipe (sys : Sys) (w : World) : Option ((Int × Int) × World) :=
  if sys.pipe_ok then
    let r := w.next
    let w1 := (xmalloc Kind.fd w).2
    let wr := w1.next
    let w2 := (xmalloc Kind.fd w1).2
    some (((r : Int), (wr : Int)), w2)
  else none

/-- The function `job_create(msg, cli_addr)`. The inner `Option` is the C result
(NULL or the job record). -/
def job_create (sys : Sys) (msg : launch_tasks_request_msg_t) (cli_addr : slurm_addr)
    (w : World) : Option (Option slurmd_job_t × World) :=
  let p := _pwd_create sys (msg.uid % 4294967296) w
  if pwd_lt_zero p.1 then
    some (none, log_error "uid %ld not found on system" [(msg.uid : Int)] p.2)
  else
    let a := p.2.next
    let w1 := (xmalloc Kind.job p.2).2
    let job : slurmd_job_t :=
      { zero_job a with
        jobid := msg.job_id, stepid := msg.job_step_id, uid := msg.uid, pwd := p.1,
        nprocs := msg.nprocs, nnodes := msg.nnodes, nodeid := msg.srun_node_id,
        ntasks := msg.tasks_to_launch, debug := msg.slurmd_debug,
        timelimit := msg.credential.expiration_time, task_flags := msg.task_flags,
        envc := msg.envc }
    match _array_copy (to_int job.envc) msg.env w1 with
    | none => none
    | some e =>
      let job := { job with env := some e.1, argc := msg.argc }
      match _array_copy (to_int job.argc) msg.argv e.2 with
      | none => none
      | some v =>
        let c := xstrdup msg.cwd v.2
        let job := { job with argv := some v.1, cwd := c.1 }
        let resp_addr := sys.slurm_set_addr cli_addr msg.resp_port
        let io_addr := sys.slurm_set_addr cli_addr msg.io_port
        let objs : Blk Nat × World := list_create c.2
        let job := { job with objs := some objs.1 }
        let s := srun_info_create sys (some msg.credential.signature) (some resp_addr)
          (some io_addr) objs.2
        let o := xstrdup msg.ofname s.2
        let er := xstrdup msg.efname o.2
        let i := xstrdup msg.ifname er.2
        let srun := { s.1 with ofname := o.1, efname := er.1, ifname := i.1 }
        let sruns : Blk srun_info × World := list_create i.2
        let job := { job with sruns := some (list_append sruns.1 srun) }
        match _job_init_task_info job msg.global_task_ids sruns.2 with
        | none => none
        | some t =>
          match pipe sys t.2 with
          | none => some (none, log_error "pipe: %m" [] t.2)
          | some f => some (some { t.1 with fdpair := f.1 }, f.2)

/-- The function `fname_create(job, format, taskid)` of `fname.c`: a fresh heap string
whose text the templating collaborator decides. -/
def fname_create (sys : Sys) (job : slurmd_job_t) (format : String) (taskid : Int)
    (w : World) : Option XStr × World :=
  (some { addr := w.next, val := sys.fname_create job format taskid },
   (xmalloc Kind.str w).2)

/-- The function `_mkfilename(job, name)`. -/
def _mkfilename (sys : Sys) (job : slurmd_job_t) (name : Option String) (w : World) :
    Option XStr × World :=
  match name with
  | none => fname_create sys job "slurm-%j.out" 0 w
  | some nm => fname_create sys job nm 0 w

/-- The function `job_batch_job_create(msg)`. -/
def job_batch_job_create (sys : Sys) (msg : batch_job_launch_msg_t) (w : World) :
    Option (Option slurmd_job_t × World) :=
  let a := w.next
  let w0 := (xmalloc Kind.job w).2
  let p := _pwd_create sys (msg.uid % 4294967296) w0
  if pwd_lt_zero p.1 then
    some (none, log_error "uid %ld not found on system" [(msg.uid : Int)] p.2)
  else
    let c := xstrdup msg.work_dir p.2
    let job : slurmd_job_t :=
      { zero_job a with
        pwd := p.1, ntasks := 1, jobid := msg.job_id, stepid := sys.NO_VAL, batch := true,
        uid := msg.uid % 4294967296, cwd := c.1, envc := msg.envc }
    match _array_copy (to_int job.envc) msg.environment c.2 with
    | none => none
    | some e =>
      let objs : Blk Nat × World := list_create e.2
      let sruns : Blk srun_info × World := list_create objs.2
      let job := { job with env := some e.1, objs := some objs.1, sruns := some sruns.1 }
      let s := srun_info_create sys none none none sruns.2
      let o := _mkfilename sys job msg.out s.2
      let er := if msg.err.isSome then xstrdup msg.err o.2 else (o.1, o.2)
      let i := xstrdup (some "/dev/null") er.2
      let srun := { s.1 with ofname := o.1, efname := er.1, ifname := i.1 }
      let job := { job with sruns := some (list_append sruns.1 srun) }
      let job := { job with argc := if msg.argc > 0 then msg.argc else 2 }
      let va := i.2.next
      let w1 := (xmalloc Kind.vec i.2).2
      let job := { job with argv := some { addr := va, elems := List.replicate job.argc none } }
      match pipe sys w1 with
      | none => some (none, log_error "pipe: %m" [] w1)
      | some f =>
        let job := { job with fdpair := f.1 }
        match _job_init_task_info job (fun _ => 0) f.2 with
        | none => none
        | some t => some (some t.1, t.2)

/-! ## Teardown -/

/-- The loop `while (--n >= 0) xfree(*array[n])` of `_array_free`, where `array` points
at the single pointer `job->env` (or `job->argv`). The expression `*array[n]` is
`*(array[n])`: for `n = 0` this is slot 0 of the block, for `n > 0` the element
`array[n]` lies outside the object `array` points at. The first argument is the value
of `n` before the decrement. -/
def _array_free_loop (v : Option (Blk (Option XStr))) : Nat → World → Option World
  | 0, w => some w
  | n + 1, w =>
    if n > 0 then none
    else
      match v with
      | none => none
      | some b =>
        match b.elems[0]? with
        | none => none
        | some s => _array_free_loop v n (xfree (s.map XStr.addr) Kind.str w)

/-- The function `_array_free(n, array)`. -/
def _array_free (n : Int) (v : Option (Blk (Option XStr))) (w : World) : Option World :=
  match _array_free_loop v n.toNat w with
  | none => none
  | some w1 => some (xfree (v.map Blk.addr) Kind.vec w1)

/-- The function `srun_info_destroy(srun)`. -/
def srun_info_destroy (srun : srun_info) (w : World) : World :=
  let w1 := xfree (srun.key.map srun_key_t.addr) Kind.key w
  xfree (some srun.addr) Kind.srun w1

/-- The function `_srun_info_destructor(arg)`. -/
def _srun_info_destructor (arg : srun_info) (w : World) : World :=
  srun_info_destroy arg w

/-- The function `io_obj_destroy` of `io.c` as far as the ledger sees it: the object
is released. -/
def io_obj_destroy (obj : Nat) (w : World) : World :=
  release obj Kind.obj w

/-- The function `list_destroy(l)` with the destructor `f` the list was created with
(`none` for `list_create(NULL)`); a NULL list has no defined continuation. -/
def list_destroy {α : Type} (f : Option (α → World → World)) (l : Option (Blk α))
    (w : World) : Option World :=
  match l with
  | none => none
  | some b =>
    let w1 := match f with
      | none => w
      | some d => b.elems.foldl (fun acc x => d x acc) w
    some (release b.addr Kind.list w1)

/-- The function `task_info_destroy(t)`. -/
def task_info_destroy (t : task_info_t) (w : World) : Option World :=
  match list_destroy none t.srun_list w with
  | none => none
  | some w1 =>
    let w2 := release t.mutex Kind.mutex w1
    some (xfree (some t.addr) Kind.task w2)

/-- The loop `for (i = 0; i < job->ntasks; i++) task_info_destroy(job->task[i])`:
the first argument is `ntasks - i`. -/
def job_destroy_tasks (job : slurmd_job_t) : Nat → Nat → World → Option World
  | 0, _, w => some w
  | k + 1, i, w =>
    match job.task with
    | none => none
    | some tv =>
      match tv.elems[i]? with
      | none => none
      | some t =>
        match task_info_destroy t w with
        | none => none
        | some w1 => job_destroy_tasks job k (i + 1) w1

/-- The function `job_destroy(job)`. -/
def job_destroy (job : slurmd_job_t) (w : World) : Option World :=
  match _array_free (to_int job.envc) job.env w with
  | none => none
  | some w1 =>
    match _array_free (to_int job.argc) job.argv w1 with
    | none => none
    | some w2 =>
      let w3 := _pwd_destroy job.pwd w2
      match job_destroy_tasks job job.ntasks 0 w3 with
      | none => none
      | some w4 =>
        match list_destroy (some _srun_info_destructor) job.sruns w4 with
        | none => none
        | some w5 =>
          match list_destroy (some io_obj_destroy) job.objs w5 with
          | none => none
          | some w6 => some (xfree (some job.addr) Kind.job w6)

/-! ## Ownership: the ledger entries behind the parts of a job record -/

/-- The ledger entry of a heap string, none for NULL. -/
def str_entry (s : Option XStr) : List (Nat × Kind) :=
  match s with
  | none => []
  | some x => [(x.addr, Kind.str)]

/-- The ledger entries of a sequence of heap strings. -/
def strs_entries : List (Option XStr) → List (Nat × Kind)
  | [] => []
  | s :: ss => str_entry s ++ strs_entries ss

/-- The ledger entries of a string vector of which the first `n` slots are owned: those
strings, then the block. -/
def vec_entries (n : Nat) (v : Option (Blk (Option XStr))) : List (Nat × Kind) :=
  match v with
  | none => []
  | some b => strs_entries (b.elems.take n) ++ [(b.addr, Kind.vec)]

/-- The ledger entries of an identity snapshot: its five strings, then the record. -/
def pwd_entries (pwd : Option passwd) : List (Nat × Kind) :=
  match pwd with
  | none => []
  | some p =>
    str_entry p.pw_name ++ str_entry p.pw_passwd ++ str_entry p.pw_gecos ++
      str_entry p.pw_shell ++ str_entry p.pw_dir ++ [(p.addr, Kind.passwd)]

/-- The ledger entries of one task record: its subscriber list, its lock, the record. -/
def task_entries (t : task_info_t) : List (Nat × Kind) :=
  (match t.srun_list with
   | none => []
   | some l => [(l.addr, Kind.list)]) ++ [(t.mutex, Kind.mutex), (t.addr, Kind.task)]

/-- The ledger entries of a sequence of task records. -/
def tasks_entries : List task_info_t → List (Nat × Kind)
  | [] => []
  | t :: ts => task_entries t ++ tasks_entries ts

/-- The ledger entries of one srun endpoint as `srun_info_destroy` sees it: its key and
the record (not its file names). -/
def srun_entries (s : srun_info) : List (Nat × Kind) :=
  (match s.key with
   | none => []
   | some k => [(k.addr, Kind.key)]) ++ [(s.addr, Kind.srun)]

/-- The ledger entries of a sequence of srun endpoints. -/
def sruns_entries : List srun_info → List (Nat × Kind)
  | [] => []
  | s :: ss => srun_entries s ++ sruns_entries ss

/-- Everything `job_destroy` releases for a job record, in the order it does so. -/
def job_entries (job : slurmd_job_t) : List (Nat × Kind) :=
  vec_entries job.envc job.env ++ vec_entries job.argc job.argv ++ pwd_entries job.pwd ++
    (match job.task with
     | none => []
     | some tv => tasks_entries tv.elems) ++
    (match job.sruns with
     | none => []
     | some l => sruns_entries l.elems ++ [(l.addr, Kind.list)]) ++
    (match job.objs with
     | none => []
     | some l => l.elems.map (fun o => (o, Kind.obj)) ++ [(l.addr, Kind.list)]) ++
    [(job.addr, Kind.job)]

/-- What a constructor has established when it returns `job`, having taken the world
from `w` to `w'`: the parts `job_destroy` walks are present, and the ledger is the one
before the call plus what `job_destroy` will release (`job_entries`) plus `leaked`, the
entries no part of `job_destroy` releases: strings, vectors and descriptors only, among
them two descriptors, one vector and at most four strings. -/
structure Built (job : slurmd_job_t) (w w' : World) : Prop where
  env_ok : ∃ b, job.env = some b ∧ (job.envc = 1 → b.elems ≠ [])
  argv_ok : ∃ b, job.argv = some b ∧ (job.argc = 1 → b.elems ≠ [])
  task_ok : ∃ tv, job.task = some tv ∧ tv.elems.length = job.ntasks ∧
    ∀ t ∈ tv.elems, t.srun_list.isSome = true
  sruns_ok : job.sruns.isSome = true
  objs_ok : job.objs.isSome = true
  ledger : ∃ leaked, List.Perm w'.live (job_entries job ++ (leaked ++ w.live)) ∧
    (∀ e ∈ leaked, e.2 = Kind.str ∨ e.2 = Kind.vec ∨ e.2 = Kind.fd) ∧
    leaked.countP (fun e => decide (e.2 = Kind.fd)) = 2 ∧
    leaked.countP (fun e => decide (e.2 = Kind.vec)) = 1 ∧
    leaked.countP (fun e => decide (e.2 = Kind.str)) ≤ 4
  bad_free : w'.bad_free = w.bad_free

end Slurmd

namespace Migration

/-! ## The scheduler plugin `migration_wrapper.c` -/

/-- The return code `SLURM_SUCCESS` of `slurm_errno.h`. -/
def SLURM_SUCCESS : Int := 0

/-- The return code `SLURM_ERROR` of `slurm_errno.h`. -/
def SLURM_ERROR : Int := -1

/-- The plugin's globals and what the embedding records about its threads:
`scheduling_disabled` is `slurmctld_config.scheduling_disabled`, `migration_thread` the
static handle (0 when none is recorded), `running` the threads created and not yet
joined, `attempts` the number of `pthread_create` calls made, `errors` the number of
`error` calls made. -/
structure Plugin where
  scheduling_disabled : Bool
  migration_thread : Nat
  running : List Nat
  attempts : Nat
  errors : Nat
  deriving DecidableEq, Repr

/-- The function `init()`. `pthread_create` is the system's answer to the call, given
the number of earlier calls: whether a thread was started and the value left in the
handle. Taking and dropping `thread_flag_mutex` leaves no trace in a sequential run. -/
def init (pthread_create : Nat → Bool × Nat) (s : Plugin) : Int × Plugin :=
  if s.scheduling_disabled then (SLURM_SUCCESS, s)
  else if s.migration_thread ≠ 0 then (SLURM_ERROR, s)
  else
    let r := pthread_create s.attempts
    let s1 := { s with attempts := s.attempts + 1, migration_thread := r.2 }
    if r.1 then (SLURM_SUCCESS, { s1 with running := s.running ++ [r.2] })
    else (SLURM_SUCCESS, { s1 with errors := s.errors + 1 })

/-- The function `fini()`: the agent is told to stop and joined. -/
def fini (s : Plugin) : Plugin :=
  if s.migration_thread ≠ 0 then
    { s with running := s.running.erase s.migration_thread, migration_thread := 0 }
  else s

/-- The plugin as loaded: nothing recorded, nothing running. -/
def loaded (disabled : Bool) : Plugin :=
  { scheduling_disabled := disabled, migration_thread := 0, running := [], attempts := 0,
    errors := 0 }

/-- A call of one of the two lifecycle hooks. -/
inductive Call
  | init | fini
  deriving DecidableEq, Repr

/-- The plugin state after one hook call. -/
def step (pthread_create : Nat → Bool × Nat) (c : Call) (s : Plugin) : Plugin :=
  match c with
  | Call.init => (init pthread_create s).2
  | Call.fini => fini s

/-- The plugin state after a sequence of hook calls, first call first. -/
def run (pthread_create : Nat → Bool × Nat) : List Call → Plugin → Plugin
  | [], s => s
  | c :: cs, s => run pthread_create cs (step pthread_create c s)

end Migration

/-! # Example inputs -/

namespace Slurmd

/-- A system in which uid 1000 exists, pipes can be created and every `kill` fails
with `ESRCH` (the target has already exited). -/
def ex_sys : Sys :=
  { NO_VAL := 4294967294, SLURM_KEY_SIZE := 2, SLURMD_JOB_STARTING := 2,
    SLURMD_JOB_ENDING := 4,
    getpwuid := fun u =>
      if u = 1000 then
        some { pw_name := "u", pw_passwd := "x", pw_gecos := "", pw_shell := "/bin/sh",
               pw_dir := "/home/u", pw_uid := 1000, pw_gid := 100 }
      else none,
    pipe_ok := true,
    kill := fun _ _ _ => some ESRCH,
    slurm_set_addr := fun a p => { a with port := p },
    fname_create := fun _ f _ => f }

/-- The same system with pipe creation failing. -/
def ex_sys_nopipe : Sys := { ex_sys with pipe_ok := false }

/-- A world with an empty ledger whose step table knows step 7.0 in state 3. -/
def ex_world : World :=
  { next := 1, live := [], bad_free := 0,
    shm := fun j s => if j = 7 ∧ s = 0 then some { state := 3, locked := false } else none,
    trace := [] }

/-- A task record with process id 4321. -/
def ex_task : task_info_t :=
  { addr := 50, mutex := 51, state := slurmd_task_state_t.SLURMD_TASK_RUNNING, id := 0,
    gid := 0, pid := 4321, pin := (-1, -1), pout := (-1, -1), perr := (-1, -1),
    estatus := -1, tin := none, tout := none, terr := none,
    srun_list := some { addr := 52, elems := [] } }

/-- A one-task job record of step 7.0. -/
def ex_job : slurmd_job_t :=
  { zero_job 40 with jobid := 7, stepid := 0, ntasks := 1,
                     task := some { addr := 49, elems := [ex_task] } }

/-- A one-task job record of step 8.0, which the step table of `ex_world` lacks. -/
def ex_job_unknown : slurmd_job_t := { ex_job with jobid := 8 }

end Slurmd

namespace Slurmd

/-- The client address used in the examples. -/
def ex_cli : slurm_addr := { host := 10, port := 0 }

/-- A launch request for four tasks by uid 1000, with one environment string and one
argument. -/
def ex_launch : launch_tasks_request_msg_t :=
  { job_id := 7, job_step_id := 0, uid := 1000, nprocs := 4, nnodes := 1,
    srun_node_id := 0, tasks_to_launch := 4, slurmd_debug := 0, task_flags := 0,
    credential := { expiration_time := 100, signature := fun _ => 0 },
    envc := 1, env := fun _ => "A=1", argc := 1, argv := fun _ => "/bin/true",
    cwd := some "/tmp", resp_port := 1, io_port := 2,
    ofname := none, efname := none, ifname := none,
    global_task_ids := fun i => i }

/-- The same launch request from uid 4242, which `ex_sys` does not know. -/
def ex_launch_nouser : launch_tasks_request_msg_t := { ex_launch with uid := 4242 }

/-- The launch request of uid 1000 with two environment strings. -/
def ex_launch_two_env : launch_tasks_request_msg_t :=
  { ex_launch with envc := 2, env := fun i => if i = 0 then "A=1" else "B=2" }

/-- A batch request by uid 1000 without output and error names. -/
def ex_batch : batch_job_launch_msg_t :=
  { job_id := 9, uid := 1000, work_dir := some "/tmp", envc := 1,
    environment := fun _ => "A=1", out := none, err := none, argc := 1 }

/-- The same batch request from uid 4242, which `ex_sys` does not know. -/
def ex_batch_nouser : batch_job_launch_msg_t := { ex_batch with uid := 4242 }

/-- The batch request of uid 1000 carrying no argument count. -/
def ex_batch_noargs : batch_job_launch_msg_t := { ex_batch with argc := 0 }

/-- The job record `job_batch_job_create` returns for `ex_batch`. -/
def ex_batch_job : slurmd_job_t :=
  match job_batch_job_create ex_sys ex_batch ex_world with
  | some (some j, _) => j
  | _ => zero_job 0

/-- The world `job_batch_job_create` leaves for `ex_batch`. -/
def ex_batch_world : World :=
  match job_batch_job_create ex_sys ex_batch ex_world with
  | some (_, w) => w
  | none => ex_world

/-- The job record `job_create` returns for `ex_launch`. -/
def ex_launch_job : slurmd_job_t :=
  match job_create ex_sys ex_launch ex_cli ex_world with
  | some (some j, _) => j
  | _ => zero_job 0

/-- The world `job_create` leaves for `ex_launch`. -/
def ex_launch_world : World :=
  match job_create ex_sys ex_launch ex_cli ex_world with
  | some (_, w) => w
  | none => ex_world

end Slurmd

namespace Migration

/-- A system in which every `pthread_create` succeeds; the thread started by call
number `n` has handle `n + 1`. -/
def ex_pthread_create : Nat → Bool × Nat := fun n => (true, n + 1)

end Migration

/-! # Theorems -/

namespace Slurmd

/-! ## Signalling -/

theorem kills_of_append (a b : List Event) : kills_of (a ++ b) = kills_of a ++ kills_of b := by
  induction a with
  | nil => rfl
  | cons e es ih => cases e <;> simp [kills_of, ih]

theorem unlocks_of_append (a b : List Event) :
    unlocks_of (a ++ b) = unlocks_of a ++ unlocks_of b := by
  induction a with
  | nil => rfl
  | cons e es ih => cases e <;> simp [unlocks_of, ih]

theorem errors_of_append (a b : List Event) :
    errors_of (a ++ b) = errors_of a ++ errors_of b := by
  induction a with
  | nil => rfl
  | cons e es ih => cases e <;> simp [errors_of, ih]

theorem kill_task_kills (sys : Sys) (job : slurmd_job_t) (n : Nat) (pid sig : Int)
    (w : World) :
    kills_of (kill_task sys job n pid sig w).trace = kills_of w.trace ++ [(pid, sig)] := by
  unfold kill_task
  cases sys.kill w.trace pid sig with
  | none => simp [kills_of_append, kills_of]
  | some errno =>
    by_cases h : errno = EEXIST <;> simp [h, log_error, kills_of_append, kills_of]

theorem kill_task_unlocks (sys : Sys) (job : slurmd_job_t) (n : Nat) (pid sig : Int)
    (w : World) :
    unlocks_of (kill_task sys job n pid sig w).trace = unlocks_of w.trace := by
  unfold kill_task
  cases sys.kill w.trace pid sig with
  | none => simp [unlocks_of_append, unlocks_of]
  | some errno =>
    by_cases h : errno = EEXIST <;> simp [h, log_error, unlocks_of_append, unlocks_of]

theorem kill_task_shm (sys : Sys) (job : slurmd_job_t) (n : Nat) (pid sig : Int)
    (w : World) : (kill_task sys job n pid sig w).shm = w.shm := by
  unfold kill_task
  cases sys.kill w.trace pid sig with
  | none => rfl
  | some errno => by_cases h : errno = EEXIST <;> simp [h, log_error]

/-- The sweep over the first `n` slots succeeds, leaves the step table alone and makes
one `kill` call per slot, from slot `n - 1` down to slot 0. -/
theorem job_signal_tasks_loop_spec (sys : Sys) (job : slurmd_job_t) (sig : Int)
    (tv : Blk task_info_t) (htask : job.task = some tv) :
    ∀ (n : Nat) (w : World), n ≤ tv.elems.length →
      ∃ w', job_signal_tasks_loop sys job sig n w = some w' ∧
        kills_of w'.trace
          = kills_of w.trace ++ ((tv.elems.take n).reverse.map (fun t => (t.pid, sig))) ∧
        w'.shm = w.shm := by
  intro n
  induction n with
  | zero => intro w _; exact ⟨w, rfl, by simp, rfl⟩
  | succ n ih =>
    intro w hn
    have hlt : n < tv.elems.length := by omega
    obtain ⟨w', hrun, hk, hs⟩ :=
      ih (kill_task sys job n (tv.elems[n]).pid sig w) (by omega)
    refine ⟨w', ?_, ?_, ?_⟩
    · simp only [job_signal_tasks_loop, htask, List.getElem?_eq_getElem hlt]
      exact hrun
    · have ht : List.take (n + 1) tv.elems = List.take n tv.elems ++ [tv.elems[n]] := by
        rw [List.take_succ, List.getElem?_eq_getElem hlt]
        rfl
      rw [hk, kill_task_kills, ht]
      simp only [List.reverse_append, List.map_append, List.reverse_cons, List.reverse_nil,
        List.nil_append, List.map_cons, List.map_nil, List.append_assoc]
    · rw [hs, kill_task_shm]

theorem to_int_of_lt (v : Nat) (h : v < 2147483648) : to_int v = (v : Int) := by
  unfold to_int
  have h1 : v % 4294967296 = v := Nat.mod_eq_of_lt (by omega)
  rw [h1, if_pos h]

/-- On a job record whose task array holds its `ntasks` records the whole sweep
succeeds and makes one `kill` call per task, last task first. -/
theorem job_signal_tasks_spec (sys : Sys) (job : slurmd_job_t) (sig : Int)
    (tv : Blk task_info_t) (htask : job.task = some tv)
    (hlen : tv.elems.length = job.ntasks) (hN : job.ntasks < 2147483648) (w : World) :
    ∃ w', job_signal_tasks sys job sig w = some w' ∧
      kills_of w'.trace = kills_of w.trace ++ (tv.elems.reverse.map (fun t => (t.pid, sig))) ∧
      w'.shm = w.shm := by
  have h := job_signal_tasks_loop_spec sys job sig tv htask job.ntasks w (by omega)
  unfold job_signal_tasks
  rw [to_int_of_lt _ hN, Int.toNat_ofNat]
  rw [← hlen, List.take_length] at h
  rw [← hlen]
  exact h

/-- C6: when `shm_lock_step_state` finds no entry for the job's step, `job_kill`
returns normally, makes no `kill` call, leaves the step-state table as it was and does
not call `shm_unlock_step_state`. -/
theorem job_kill_no_entry (sys : Sys) (job : slurmd_job_t) (rc : Int) (w : World)
    (h : (shm_lock_step_state job.jobid job.stepid w).1 = none) :
    ∃ w', job_kill sys job rc w = some w' ∧
      kills_of w'.trace = kills_of w.trace ∧
      w'.shm = w.shm ∧
      unlocks_of w'.trace = unlocks_of w.trace ∧
      w'.live = w.live := by
  unfold shm_lock_step_state at h
  unfold job_kill shm_lock_step_state
  cases hs : w.shm job.jobid job.stepid with
  | none => simp [kills_of_append, kills_of, unlocks_of_append, unlocks_of]
  | some e => simp [hs] at h

/-- Witness for C6: step 8.0 is not in the table of `ex_world`. -/
theorem job_kill_no_entry_witness :
    ∃ w', job_kill ex_sys ex_job_unknown 15 ex_world = some w' ∧
      kills_of w'.trace = kills_of ex_world.trace ∧
      w'.shm = ex_world.shm ∧
      unlocks_of w'.trace = unlocks_of ex_world.trace ∧
      w'.live = ex_world.live :=
  job_kill_no_entry ex_sys ex_job_unknown 15 ex_world (by decide)

end Slurmd

namespace Slurmd

theorem kill_task_errors (sys : Sys) (job : slurmd_job_t) (n : Nat) (pid sig : Int)
    (w : World) :
    errors_of (kill_task sys job n pid sig w).trace
      = errors_of w.trace ++
        (match sys.kill w.trace pid sig with
         | none => []
         | some errno =>
           if errno = EEXIST then []
           else [("job %d.%d: kill task %d: %m",
                  [(job.jobid : Int), (job.stepid : Int), (n : Int)])]) := by
  unfold kill_task
  cases sys.kill w.trace pid sig with
  | none => simp [errors_of_append, errors_of]
  | some errno =>
    by_cases h : errno = EEXIST <;> simp [h, log_error, errors_of_append, errors_of]

/-- C3 (amended): when the step's entry exists with a state above
`SLURMD_JOB_STARTING`, `job_kill` makes exactly one `kill` call per task of the job,
each with `SIGKILL` whatever its second argument is, and leaves the entry in state
`SLURMD_JOB_ENDING`. -/
theorem job_kill_sweeps_sigkill (sys : Sys) (job : slurmd_job_t) (rc : Int) (w : World)
    (e : shm_step) (tv : Blk task_info_t)
    (he : (shm_lock_step_state job.jobid job.stepid w).1 = some e)
    (hst : e.state > sys.SLURMD_JOB_STARTING)
    (htask : job.task = some tv) (hlen : tv.elems.length = job.ntasks)
    (hN : job.ntasks < 2147483648) :
    ∃ w', job_kill sys job rc w = some w' ∧
      kills_of w'.trace
        = kills_of w.trace ++ (tv.elems.reverse.map (fun t => (t.pid, SIGKILL))) ∧
      (w'.shm job.jobid job.stepid).map shm_step.state = some sys.SLURMD_JOB_ENDING := by
  unfold shm_lock_step_state at he
  cases hs : w.shm job.jobid job.stepid with
  | none => simp [hs] at he
  | some e0 =>
    simp only [hs, Option.some.injEq] at he
    subst he
    obtain ⟨w2, hrun, hk, hshm⟩ := job_signal_tasks_spec sys job SIGKILL tv htask hlen hN
      { next := w.next, live := w.live, bad_free := w.bad_free,
        shm := fun j s =>
          if j = job.jobid ∧ s = job.stepid then some { e0 with locked := true }
          else w.shm j s,
        trace := w.trace ++ [Event.shm_lock job.jobid job.stepid] }
    refine ⟨shm_unlock_step_state job.jobid job.stepid
      (shm_store_state job.jobid job.stepid sys.SLURMD_JOB_ENDING w2), ?_, ?_, ?_⟩
    · simp only [job_kill, shm_lock_step_state, hs, if_pos hst, hrun]
    · simp only [shm_unlock_step_state, shm_store_state, kills_of_append, hk]
      simp [kills_of]
    · simp [shm_unlock_step_state, shm_store_state, hshm]

/-- Witness for C3 (amended): the one-task job of step 7.0, whose entry is in state 3. -/
theorem job_kill_sweeps_sigkill_witness :
    ∃ w', job_kill ex_sys ex_job 15 ex_world = some w' ∧
      kills_of w'.trace
        = kills_of ex_world.trace ++ ([ex_task].reverse.map (fun t => (t.pid, SIGKILL))) ∧
      (w'.shm ex_job.jobid ex_job.stepid).map shm_step.state
        = some ex_sys.SLURMD_JOB_ENDING :=
  job_kill_sweeps_sigkill ex_sys ex_job 15 ex_world { state := 3, locked := false }
    { addr := 49, elems := [ex_task] } (by decide) (by decide) rfl rfl (by decide)

/-- Counterexample for C3: the entry of step 7.0 exists in state 3, above
`SLURMD_JOB_STARTING` (2 here); called with 15 (`SIGTERM`) as its second argument,
`job_kill` signals the task with 9 (`SIGKILL`), not with 15. -/
theorem job_kill_ignores_argument :
    (ex_world.shm ex_job.jobid ex_job.stepid).map shm_step.state = some 3 ∧
      ex_sys.SLURMD_JOB_STARTING = 2 ∧
      (job_kill ex_sys ex_job 15 ex_world).map (fun w => kills_of w.trace)
        = some [(4321, 9)] ∧
      (job_kill ex_sys ex_job 15 ex_world).map (fun w => kills_of w.trace)
        ≠ some [(4321, 15)] := by
  decide

/-- C4 (the code at the failing input): a task that has already exited makes `kill`
fail with `ESRCH`, and the sweep reports an error for it. -/
theorem job_signal_tasks_reports_esrch :
    ex_sys.kill ex_world.trace ex_task.pid SIGKILL = some ESRCH ∧
      (job_signal_tasks ex_sys ex_job SIGKILL ex_world).map (fun w => errors_of w.trace)
        = some [("job %d.%d: kill task %d: %m", [7, 0, 0])] := by
  decide

end Slurmd

namespace Migration

/-- What the hooks keep true once thread handles are non-zero: a thread that runs is
the recorded one. -/
theorem init_keeps_recorded (pthread_create : Nat → Bool × Nat)
    (hnz : ∀ n, (pthread_create n).1 = true → (pthread_create n).2 ≠ 0) (s : Plugin)
    (h : s.running = [] ∨ (s.running = [s.migration_thread] ∧ s.migration_thread ≠ 0)) :
    (init pthread_create s).2.running = [] ∨
      ((init pthread_create s).2.running = [(init pthread_create s).2.migration_thread] ∧
        (init pthread_create s).2.migration_thread ≠ 0) := by
  unfold init
  by_cases hd : s.scheduling_disabled = true
  · simpa [hd] using h
  · by_cases ht : s.migration_thread = 0
    · have hr : s.running = [] := by
        rcases h with h | h
        · exact h
        · exact absurd ht h.2
      by_cases hc : (pthread_create s.attempts).1 = true
      · simp [hd, ht, hc, hr, hnz s.attempts hc]
      · simp [hd, ht, hc, hr]
    · simpa [hd, ht] using h

theorem fini_keeps_recorded (s : Plugin)
    (h : s.running = [] ∨ (s.running = [s.migration_thread] ∧ s.migration_thread ≠ 0)) :
    (fini s).running = [] ∨
      ((fini s).running = [(fini s).migration_thread] ∧ (fini s).migration_thread ≠ 0) := by
  unfold fini
  by_cases ht : s.migration_thread = 0
  · simpa [ht] using h
  · rcases h with h | h
    · simp [ht, h]
    · simp [ht, h.1]

theorem run_keeps_recorded (pthread_create : Nat → Bool × Nat)
    (hnz : ∀ n, (pthread_create n).1 = true → (pthread_create n).2 ≠ 0) :
    ∀ (calls : List Call) (s : Plugin),
      (s.running = [] ∨ (s.running = [s.migration_thread] ∧ s.migration_thread ≠ 0)) →
      ((run pthread_create calls s).running = [] ∨
        ((run pthread_create calls s).running
            = [(run pthread_create calls s).migration_thread] ∧
          (run pthread_create calls s).migration_thread ≠ 0)) := by
  intro calls
  induction calls with
  | nil => intro s h; exact h
  | cons c cs ih =>
    intro s h
    simp only [run]
    apply ih
    cases c with
    | init => exact init_keeps_recorded pthread_create hnz s h
    | fini => exact fini_keeps_recorded s h

/-- C10 (amended): with scheduling enabled, no thread recorded and thread creation
succeeding (the handle of a started thread is never zero), the first `init` starts the
thread and records its handle, and a second `init` answers `SLURM_ERROR` and changes
nothing: no second thread is started and the recorded handle stays. Consequently, in
every state reached from the loaded plugin by `init` and `fini` calls, at most one
thread runs, and a thread that runs is the recorded one. -/
theorem init_twice (pthread_create : Nat → Bool × Nat) (s : Plugin)
    (hen : s.scheduling_disabled = false) (hnone : s.migration_thread = 0)
    (hok : (pthread_create s.attempts).1 = true)
    (hnz : ∀ n, (pthread_create n).1 = true → (pthread_create n).2 ≠ 0) :
    (init pthread_create s).1 = SLURM_SUCCESS ∧
      (init pthread_create s).2.running = s.running ++ [(pthread_create s.attempts).2] ∧
      (init pthread_create s).2.migration_thread = (pthread_create s.attempts).2 ∧
      init pthread_create (init pthread_create s).2
        = (SLURM_ERROR, (init pthread_create s).2) ∧
      ∀ (calls : List Call) (d : Bool),
        (run pthread_create calls (loaded d)).running.length ≤ 1 ∧
          ∀ t ∈ (run pthread_create calls (loaded d)).running,
            t = (run pthread_create calls (loaded d)).migration_thread := by
  have h1 : init pthread_create s
      = (SLURM_SUCCESS,
         { s with attempts := s.attempts + 1,
                  migration_thread := (pthread_create s.attempts).2,
                  running := s.running ++ [(pthread_create s.attempts).2] }) := by
    simp [init, hen, hnone, hok]
  rw [h1]
  refine ⟨rfl, rfl, rfl, ?_, ?_⟩
  · simp [init, hen, hnz s.attempts hok]
  · intro calls d
    rcases run_keeps_recorded pthread_create hnz calls (loaded d) (Or.inl rfl) with h | h
    · rw [h]
      exact ⟨by simp, fun t ht => absurd ht (List.not_mem_nil t)⟩
    · rw [h.1]
      exact ⟨by simp, fun t ht => List.mem_singleton.mp ht⟩

/-- Witness for C10 (amended): the freshly loaded plugin with scheduling enabled. -/
theorem init_twice_witness :
    (init ex_pthread_create (loaded false)).1 = SLURM_SUCCESS ∧
      (init ex_pthread_create (loaded false)).2.running
        = (loaded false).running ++ [(ex_pthread_create (loaded false).attempts).2] ∧
      (init ex_pthread_create (loaded false)).2.migration_thread
        = (ex_pthread_create (loaded false).attempts).2 ∧
      init ex_pthread_create (init ex_pthread_create (loaded false)).2
        = (SLURM_ERROR, (init ex_pthread_create (loaded false)).2) ∧
      ∀ (calls : List Call) (d : Bool),
        (run ex_pthread_create calls (loaded d)).running.length ≤ 1 ∧
          ∀ t ∈ (run ex_pthread_create calls (loaded d)).running,
            t = (run ex_pthread_create calls (loaded d)).migration_thread :=
  init_twice ex_pthread_create (loaded false) rfl rfl rfl (fun n _ => Nat.succ_ne_zero n)

/-- With scheduling disabled `init` answers `SLURM_SUCCESS` and changes nothing, in every
state. -/
theorem init_disabled (pthread_create : Nat → Bool × Nat) (s : Plugin)
    (hd : s.scheduling_disabled = true) :
    init pthread_create s = (SLURM_SUCCESS, s) := by
  simp [init, hd]

/-- Counterexample for C10: with scheduling disabled the first `init` starts no thread
and the second `init` answers `SLURM_SUCCESS`, not `SLURM_ERROR`. -/
theorem init_twice_disabled :
    (init ex_pthread_create (loaded true)).2.running = [] ∧
      (init ex_pthread_create (init ex_pthread_create (loaded true)).2).1 = SLURM_SUCCESS ∧
      (init ex_pthread_create (init ex_pthread_create (loaded true)).2).1 ≠ SLURM_ERROR := by
  decide

end Migration

namespace Slurmd

/-! ## Construction of the task array -/

theorem to_int_nonneg_of_lt (v : Nat) (h : v < 2147483648) : 0 ≤ to_int v := by
  rw [to_int_of_lt v h]
  exact Int.ofNat_nonneg v

theorem tasks_entries_append (a b : List task_info_t) :
    tasks_entries (a ++ b) = tasks_entries a ++ tasks_entries b := by
  induction a with
  | nil => rfl
  | cons t ts ih => simp [tasks_entries, ih]

theorem task_info_create_some (taskid gtaskid : Int) (w : World)
    (h1 : 0 ≤ taskid) (h2 : 0 ≤ gtaskid) :
    ∃ r, task_info_create taskid gtaskid w = some r := by
  unfold task_info_create
  simp [not_lt.mpr h1, not_lt.mpr h2]

theorem task_info_create_spec (taskid gtaskid : Int) (w : World) (r : task_info_t × World)
    (h : task_info_create taskid gtaskid w = some r) :
    r.1.id = taskid ∧ r.1.gid = gtaskid ∧
      r.1.state = slurmd_task_state_t.SLURMD_TASK_INIT ∧ r.1.pid = -1 ∧
      r.1.srun_list.isSome = true ∧
      r.2.live = task_entries r.1 ++ w.live ∧ r.2.bad_free = w.bad_free ∧
      r.2.shm = w.shm ∧ r.2.trace = w.trace := by
  unfold task_info_create at h
  by_cases h1 : taskid < 0
  · simp [h1] at h
  · by_cases h2 : gtaskid < 0
    · simp [h1, h2] at h
    · simp only [h1, h2, if_false, Option.some.injEq] at h
      subst h
      simp [task_entries, list_create, xmalloc]

/-- The task loop, when it completes, appends one record per index to the slots filled so
far: local id the index, global id the converted `gid[index]`, state
`SLURMD_TASK_INIT`; the ledger grows by exactly the entries of those records. -/
theorem init_loop_spec (gid : Nat → Nat) :
    ∀ (k i : Nat) (acc : List task_info_t) (w : World) (r : List task_info_t × World),
      _job_init_task_info_loop gid k i acc w = some r →
      ∃ ts, r.1 = acc ++ ts ∧ ts.length = k ∧
        (∀ (j : Nat) (hj : j < ts.length),
          (ts[j]).id = ((i + j : Nat) : Int) ∧ (ts[j]).gid = to_int (gid (i + j)) ∧
            (ts[j]).state = slurmd_task_state_t.SLURMD_TASK_INIT) ∧
        (∀ t ∈ ts, t.srun_list.isSome = true) ∧
        List.Perm r.2.live (tasks_entries ts ++ w.live) ∧ r.2.bad_free = w.bad_free ∧
        r.2.shm = w.shm ∧ r.2.trace = w.trace := by
  intro k
  induction k with
  | zero =>
    intro i acc w r h
    simp only [_job_init_task_info_loop, Option.some.injEq] at h
    subst h
    exact ⟨[], by simp, rfl, fun j hj => absurd hj (by simp), by simp,
      by simp [tasks_entries], rfl, rfl, rfl⟩
  | succ k ih =>
    intro i acc w r h
    simp only [_job_init_task_info_loop] at h
    cases hc : task_info_create (i : Int) (to_int (gid i)) w with
    | none => simp [hc] at h
    | some c =>
      simp only [hc] at h
      obtain ⟨hid, hgid, hst, _, hsl, hlive, hbf, hshm, htr⟩ :=
        task_info_create_spec _ _ _ _ hc
      obtain ⟨ts, hr, hlen, hprop, hall, hperm, hbf2, hshm2, htr2⟩ := ih _ _ _ _ h
      refine ⟨c.1 :: ts, ?_, ?_, ?_, ?_, ?_, ?_, ?_, ?_⟩
      · rw [hr]; simp
      · simp [hlen]
      · intro j hj
        cases j with
        | zero => exact ⟨by simpa using hid, by simpa using hgid, by simpa using hst⟩
        | succ j =>
          have hj2 : j < ts.length := by simpa using hj
          obtain ⟨a, b, c⟩ := hprop j hj2
          refine ⟨?_, ?_, ?_⟩
          · simp only [List.getElem_cons_succ]; rw [a]; congr 1; omega
          · simp only [List.getElem_cons_succ]; rw [b]; congr 2; omega
          · simpa using c
      · intro t ht
        rcases List.mem_cons.mp ht with h1 | h1
        · rw [h1]; exact hsl
        · exact hall t h1
      · rw [hlive] at hperm
        refine hperm.trans ?_
        simp only [tasks_entries]
        rw [← List.append_assoc]
        exact List.Perm.append_right _ List.perm_append_comm
      · rw [hbf2, hbf]
      · rw [hshm2, hshm]
      · rw [htr2, htr]

/-- The task loop completes when the global ids it reads fit a C `int`. -/
theorem init_loop_some (gid : Nat → Nat) :
    ∀ (k i : Nat) (acc : List task_info_t) (w : World),
      (∀ j, i ≤ j → j < i + k → gid j < 2147483648) →
      ∃ r, _job_init_task_info_loop gid k i acc w = some r := by
  intro k
  induction k with
  | zero => intro i acc w _; exact ⟨(acc, w), rfl⟩
  | succ k ih =>
    intro i acc w hg
    obtain ⟨c, hc⟩ := task_info_create_some (i : Int) (to_int (gid i)) w
      (Int.ofNat_nonneg i) (to_int_nonneg_of_lt _ (hg i (le_refl i) (by omega)))
    obtain ⟨r, hr⟩ := ih (i + 1) (acc ++ [c.1]) c.2 (fun j h1 h2 => hg j (by omega) (by omega))
    exact ⟨r, by simp only [_job_init_task_info_loop, hc]; exact hr⟩

theorem pwd_lt_zero_eq (p : Option passwd) : pwd_lt_zero p = false := by
  simp [pwd_lt_zero]

theorem array_copy_some (n : Nat) (hn : n < 2147483647) (src : Nat → String) (w : World) :
    ∃ r, _array_copy (to_int n) src w = some r := by
  have h : ¬ ((n : Int) < 0 ∨ (2147483647 : Int) ≤ (n : Int)) := by omega
  unfold _array_copy
  rw [to_int_of_lt n (by omega), if_neg h]
  exact ⟨_, rfl⟩

/-- C1 (amended): when the uid of the request resolves, the pipe can be created and the
request's counts and global task ids fit a C `int` (`N` and the ids at most `INT_MAX`,
`envc` and `argc` below `INT_MAX`), `job_create` returns a job record with `ntasks = N`
whose task array holds exactly `N` records; the record at position `i` has local id
`i`, global id `global_task_ids[i]` and state `SLURMD_TASK_INIT`. -/
theorem job_create_tasks (sys : Sys) (msg : launch_tasks_request_msg_t)
    (cli_addr : slurm_addr) (w : World)
    (huid : (sys.getpwuid (msg.uid % 4294967296)).isSome = true)
    (hpipe : sys.pipe_ok = true)
    (hN : msg.tasks_to_launch < 2147483648)
    (hgid : ∀ i, i < msg.tasks_to_launch → msg.global_task_ids i < 2147483648)
    (henvc : msg.envc < 2147483647) (hargc : msg.argc < 2147483647) :
    ∃ job w' tv, job_create sys msg cli_addr w = some (some job, w') ∧
      job.ntasks = msg.tasks_to_launch ∧ job.task = some tv ∧
      tv.elems.length = msg.tasks_to_launch ∧
      ∀ (i : Nat) (hi : i < tv.elems.length),
        (tv.elems[i]).id = (i : Int) ∧
          (tv.elems[i]).gid = (msg.global_task_ids i : Int) ∧
          (tv.elems[i]).state = slurmd_task_state_t.SLURMD_TASK_INIT := by
  obtain ⟨_, _⟩ := Option.isSome_iff_exists.mp huid
  unfold job_create
  simp only [pwd_lt_zero_eq, Bool.false_eq_true, if_false]
  obtain ⟨e, he⟩ := array_copy_some msg.envc henvc msg.env
    (xmalloc Kind.job (_pwd_create sys (msg.uid % 4294967296) w).2).2
  simp only [he]
  obtain ⟨v, hv⟩ := array_copy_some msg.argc hargc msg.argv e.2
  simp only [hv]
  have hnn : ¬ ((msg.tasks_to_launch : Int) < 0) := by omega
  simp only [_job_init_task_info, to_int_of_lt _ hN, Int.toNat_ofNat, hnn, if_false]
  generalize hw0 : (xmalloc Kind.vec _).2 = w0
  obtain ⟨r, hr⟩ := init_loop_some msg.global_task_ids msg.tasks_to_launch 0 [] w0
    (fun j _ h2 => hgid j (by omega))
  obtain ⟨ts, hts, hlen, hprop, _⟩ := init_loop_spec _ _ _ _ _ _ hr
  simp only [hr, pipe, hpipe, if_true]
  refine ⟨_, _, _, rfl, rfl, rfl, ?_, ?_⟩
  · simp [hts, hlen]
  · intro i hi
    simp only [hts, List.nil_append] at hi ⊢
    obtain ⟨a, b, c⟩ := hprop i hi
    refine ⟨by simpa using a, ?_, c⟩
    rw [b, Nat.zero_add, to_int_of_lt _ (hgid i (by omega))]

/-- Witness for C1 (amended): the four-task launch request. -/
theorem job_create_tasks_witness :
    ∃ job w' tv, job_create ex_sys ex_launch ex_cli ex_world = some (some job, w') ∧
      job.ntasks = ex_launch.tasks_to_launch ∧ job.task = some tv ∧
      tv.elems.length = ex_launch.tasks_to_launch ∧
      ∀ (i : Nat) (hi : i < tv.elems.length),
        (tv.elems[i]).id = (i : Int) ∧
          (tv.elems[i]).gid = (ex_launch.global_task_ids i : Int) ∧
          (tv.elems[i]).state = slurmd_task_state_t.SLURMD_TASK_INIT :=
  job_create_tasks ex_sys ex_launch ex_cli ex_world (by decide) rfl (by decide)
    (fun i hi => by simp only [ex_launch] at hi ⊢; omega) (by decide) (by decide)

/-- Counterexample for C1: the uid resolves and four task ids are supplied, yet with
pipe creation failing `job_create` returns NULL, not a job record. -/
theorem job_create_null_without_pipe :
    (ex_sys_nopipe.getpwuid (ex_launch.uid % 4294967296)).isSome = true ∧
      (job_create ex_sys_nopipe ex_launch ex_cli ex_world).map (fun r => r.1.isSome)
        = some false := by
  decide

end Slurmd

namespace Slurmd

/-! ## The batch constructor -/

theorem job_init_task_info_one (job : slurmd_job_t) (h1 : job.ntasks = 1) (w : World) :
    ∃ t w', _job_init_task_info job (fun _ => 0) w
        = some ({ job with task := some { addr := w.next, elems := [t] } }, w') ∧
      t.id = 0 ∧ t.gid = 0 ∧ t.state = slurmd_task_state_t.SLURMD_TASK_INIT ∧
      t.srun_list.isSome = true ∧
      List.Perm w'.live (task_entries t ++ (w.next, Kind.vec) :: w.live) ∧
      w'.bad_free = w.bad_free := by
  have hto : to_int job.ntasks = 1 := by rw [h1, to_int_of_lt 1 (by omega)]; rfl
  obtain ⟨r, hr⟩ := init_loop_some (fun _ => 0) 1 0 [] (xmalloc Kind.vec w).2
    (fun _ _ _ => by show (0 : Nat) < 2147483648; omega)
  obtain ⟨ts, hts, hlen, hprop, hall, hperm, hbf, _, _⟩ := init_loop_spec _ _ _ _ _ _ hr
  obtain ⟨t, ht⟩ : ∃ t, ts = [t] := List.length_eq_one.mp hlen
  subst ht
  have hp := hprop 0 (by simp)
  refine ⟨t, r.2, ?_, ?_, ?_, hp.2.2, hall t (by simp), ?_, ?_⟩
  · simp only [_job_init_task_info, hto]
    have h2 : (1 : Int).toNat = 1 := by simp
    have h3 : ¬ ((1 : Int) < 0) := by omega
    rw [if_neg h3, h2, hr]
    simp [hts, xmalloc]
  · simpa using hp.1
  · have h0 : to_int 0 = 0 := by rw [to_int_of_lt 0 (by omega)]; rfl
    simpa [h0] using hp.2.1
  · simpa [tasks_entries, xmalloc] using hperm
  · simpa [xmalloc] using hbf

theorem job_init_task_info_one_of (job : slurmd_job_t) (w : World)
    (r : slurmd_job_t × World) (h : _job_init_task_info job (fun _ => 0) w = some r)
    (h1 : job.ntasks = 1) :
    ∃ t, r.1 = { job with task := some { addr := w.next, elems := [t] } } ∧
      t.id = 0 ∧ t.gid = 0 ∧ t.state = slurmd_task_state_t.SLURMD_TASK_INIT ∧
      t.srun_list.isSome = true ∧
      List.Perm r.2.live (task_entries t ++ (w.next, Kind.vec) :: w.live) ∧
      r.2.bad_free = w.bad_free := by
  obtain ⟨t, w', hinit, h2⟩ := job_init_task_info_one job h1 w
  rw [hinit] at h
  simp only [Option.some.injEq] at h
  subst h
  exact ⟨t, rfl, h2⟩

/-- C9: a job record returned by `job_batch_job_create` has `ntasks = 1`, step id
`NO_VAL`, the batch flag set, exactly one srun endpoint in its list and exactly one task
record, with local id 0, global id 0 and state `SLURMD_TASK_INIT`, whatever counts the
request carries. -/
theorem batch_job_shape (sys : Sys) (msg : batch_job_launch_msg_t) (w w' : World)
    (job : slurmd_job_t)
    (h : job_batch_job_create sys msg w = some (some job, w')) :
    job.ntasks = 1 ∧ job.stepid = sys.NO_VAL ∧ job.batch = true ∧
      (∃ sl srun, job.sruns = some sl ∧ sl.elems = [srun]) ∧
      (∃ tv t, job.task = some tv ∧ tv.elems = [t] ∧ t.id = 0 ∧ t.gid = 0 ∧
        t.state = slurmd_task_state_t.SLURMD_TASK_INIT) := by
  unfold job_batch_job_create at h
  simp only [pwd_lt_zero_eq, Bool.false_eq_true, if_false] at h
  split at h
  · exact absurd h (by simp)
  · split at h
    · exact absurd h (by simp)
    · rename_i f hf
      split at h
      · exact absurd h (by simp)
      · rename_i t ht
        obtain ⟨t0, hinit, hid, hgid, hst, _⟩ := job_init_task_info_one_of _ _ _ ht rfl
        simp only [Option.some.injEq, Prod.mk.injEq] at h
        obtain ⟨hj, _⟩ := h
        subst hj
        rw [hinit]
        exact ⟨rfl, rfl, rfl, ⟨_, _, rfl, rfl⟩, ⟨_, t0, rfl, rfl, hid, hgid, hst⟩⟩

/-- Witness for C9: the batch request of uid 1000. -/
theorem batch_job_shape_witness :
    ex_batch_job.ntasks = 1 ∧ ex_batch_job.stepid = ex_sys.NO_VAL ∧
      ex_batch_job.batch = true ∧
      (∃ sl srun, ex_batch_job.sruns = some sl ∧ sl.elems = [srun]) ∧
      (∃ tv t, ex_batch_job.task = some tv ∧ tv.elems = [t] ∧ t.id = 0 ∧ t.gid = 0 ∧
        t.state = slurmd_task_state_t.SLURMD_TASK_INIT) :=
  batch_job_shape ex_sys ex_batch ex_world ex_batch_world ex_batch_job rfl

/-- C8: in a job record returned by `job_batch_job_create` the single srun endpoint has
as output path the name `fname_create` makes from `"slurm-%j.out"` when the request has
no `out` and from `out` otherwise; as error path the request's `err` when present and
otherwise the very string of the output path; as input path `"/dev/null"`. The job
record handed to `fname_create` is the one under construction: its srun list still
empty, `argc`, `argv`, `fdpair` and `task` not yet set. -/
theorem batch_job_paths (sys : Sys) (msg : batch_job_launch_msg_t) (w w' : World)
    (job : slurmd_job_t)
    (h : job_batch_job_create sys msg w = some (some job, w')) :
    ∃ sl srun, job.sruns = some sl ∧ sl.elems = [srun] ∧
      (msg.out = none →
        srun.ofname.map XStr.val
          = some (sys.fname_create
              { job with sruns := some { sl with elems := [] }, argc := 0, argv := none,
                         fdpair := (0, 0), task := none } "slurm-%j.out" 0)) ∧
      (∀ o, msg.out = some o →
        srun.ofname.map XStr.val
          = some (sys.fname_create
              { job with sruns := some { sl with elems := [] }, argc := 0, argv := none,
                         fdpair := (0, 0), task := none } o 0)) ∧
      (∀ x, msg.err = some x → srun.efname.map XStr.val = some x) ∧
      (msg.err = none → srun.efname = srun.ofname) ∧
      srun.ifname.map XStr.val = some "/dev/null" := by
  unfold job_batch_job_create at h
  simp only [pwd_lt_zero_eq, Bool.false_eq_true, if_false] at h
  split at h
  · exact absurd h (by simp)
  · split at h
    · exact absurd h (by simp)
    · rename_i f hf
      split at h
      · exact absurd h (by simp)
      · rename_i t ht
        obtain ⟨t0, hinit, _⟩ := job_init_task_info_one_of _ _ _ ht rfl
        simp only [Option.some.injEq, Prod.mk.injEq] at h
        obtain ⟨hj, _⟩ := h
        subst hj
        rw [hinit]
        refine ⟨_, _, rfl, rfl, ?_, ?_, ?_, ?_, ?_⟩
        · intro ho
          simp [ho, _mkfilename, fname_create, list_create, list_append, zero_job]
        · intro o ho
          simp [ho, _mkfilename, fname_create, list_create, list_append, zero_job]
        · intro x hx
          simp [hx, xstrdup]
        · intro hx
          simp [hx]
        · simp [xstrdup]

/-- Witness for C8: the batch request of uid 1000, which has neither `out` nor `err`. -/
theorem batch_job_paths_witness :
    ∃ sl srun, ex_batch_job.sruns = some sl ∧ sl.elems = [srun] ∧
      (ex_batch.out = none →
        srun.ofname.map XStr.val
          = some (ex_sys.fname_create
              { ex_batch_job with sruns := some { sl with elems := [] }, argc := 0,
                                  argv := none, fdpair := (0, 0), task := none }
              "slurm-%j.out" 0)) ∧
      (∀ o, ex_batch.out = some o →
        srun.ofname.map XStr.val
          = some (ex_sys.fname_create
              { ex_batch_job with sruns := some { sl with elems := [] }, argc := 0,
                                  argv := none, fdpair := (0, 0), task := none } o 0)) ∧
      (∀ x, ex_batch.err = some x → srun.efname.map XStr.val = some x) ∧
      (ex_batch.err = none → srun.efname = srun.ofname) ∧
      srun.ifname.map XStr.val = some "/dev/null" :=
  batch_job_paths ex_sys ex_batch ex_world ex_batch_world ex_batch_job rfl

/-! ## Failure paths of the constructors -/

/-- C2 (the code at the failing input): uid 4242 does not exist and `_pwd_create`
returns NULL for it, yet `job_create` and `job_batch_job_create` both return a job
record (with `pwd` NULL) and report no error. -/
theorem constructors_accept_unknown_uid :
    (_pwd_create ex_sys 4242 ex_world).1.isNone = true ∧
      (job_create ex_sys ex_launch_nouser ex_cli ex_world).map
          (fun r => (r.1.map (fun j => j.pwd.isSome), errors_of r.2.trace))
        = some (some false, []) ∧
      (job_batch_job_create ex_sys ex_batch_nouser ex_world).map
          (fun r => (r.1.map (fun j => j.pwd.isSome), errors_of r.2.trace))
        = some (some false, []) := by
  decide

/-- C5 (the code at the failing input): with pipe creation failing both constructors
return NULL and leave behind what they had allocated: starting from an empty ledger,
`job_create` leaves 29 outstanding entries (among them 4 task records, the srun endpoint
and the job record) and `job_batch_job_create` leaves 17. -/
theorem constructors_leak_on_pipe_failure :
    ex_world.live.length = 0 ∧
      (job_create ex_sys_nopipe ex_launch ex_cli ex_world).map
          (fun r => (r.1.isSome, r.2.live.length, outstanding Kind.task r.2,
            outstanding Kind.srun r.2, outstanding Kind.job r.2))
        = some (false, 29, 4, 1, 1) ∧
      (job_batch_job_create ex_sys_nopipe ex_batch ex_world).map
          (fun r => (r.1.isSome, r.2.live.length, outstanding Kind.task r.2,
            outstanding Kind.srun r.2, outstanding Kind.job r.2))
        = some (false, 17, 0, 1, 1) := by
  decide

end Slurmd

namespace Slurmd

/-! ## Teardown: what each step takes out of the ledger -/

theorem ledger_perm_cons_erase (x : Nat × Kind) :
    ∀ (l : List (Nat × Kind)), x ∈ l → List.Perm l (x :: l.erase x) := by
  intro l
  induction l with
  | nil => intro h; exact absurd h (List.not_mem_nil x)
  | cons y ys ih =>
    intro h
    by_cases hyx : y = x
    · subst hyx
      rw [List.erase_cons_head]
    · have hx : x ∈ ys := by
        rcases List.mem_cons.mp h with h1 | h1
        · exact absurd h1.symm hyx
        · exact h1
      have hb : (y == x) = false := by simpa using hyx
      rw [List.erase_cons_tail (by simp [hb])]
      exact ((ih hx).cons y).trans (List.Perm.swap x y _)

theorem release_perm (a : Nat) (k : Kind) (w : World) (L : List (Nat × Kind))
    (h : List.Perm w.live ((a, k) :: L)) :
    List.Perm (release a k w).live L ∧ (release a k w).bad_free = w.bad_free := by
  have hm : (a, k) ∈ w.live := h.mem_iff.mpr (List.mem_cons_self _ _)
  unfold release
  rw [if_pos hm]
  refine ⟨?_, rfl⟩
  exact ((ledger_perm_cons_erase (a, k) w.live hm).symm.trans h).cons_inv

theorem xfree_str_perm (s : Option XStr) (w : World) (L : List (Nat × Kind))
    (h : List.Perm w.live (str_entry s ++ L)) :
    List.Perm (xfree (s.map XStr.addr) Kind.str w).live L ∧
      (xfree (s.map XStr.addr) Kind.str w).bad_free = w.bad_free := by
  cases s with
  | none => exact ⟨by simpa [xfree, str_entry] using h, rfl⟩
  | some x => exact release_perm x.addr Kind.str w L (by simpa [str_entry] using h)

theorem array_free_small (n : Nat) (hn : n ≤ 1) (b : Blk (Option XStr))
    (hne : n = 1 → b.elems ≠ []) (w : World) (L : List (Nat × Kind))
    (h : List.Perm w.live (vec_entries n (some b) ++ L)) :
    ∃ w1, _array_free (n : Int) (some b) w = some w1 ∧ List.Perm w1.live L ∧
      w1.bad_free = w.bad_free := by
  rcases Nat.le_one_iff_eq_zero_or_eq_one.mp hn with h0 | h1
  · subst h0
    have hr := release_perm b.addr Kind.vec w L (by simpa [vec_entries, strs_entries] using h)
    exact ⟨_, by simp [_array_free, _array_free_loop, xfree], hr.1, hr.2⟩
  · subst h1
    cases hb : b.elems with
    | nil => exact absurd hb (hne rfl)
    | cons s rest =>
      have h2 : List.Perm w.live (str_entry s ++ ((b.addr, Kind.vec) :: L)) := by
        simpa [vec_entries, strs_entries, hb] using h
      have hs := xfree_str_perm s w _ h2
      have hr := release_perm b.addr Kind.vec _ L hs.1
      refine ⟨_, ?_, hr.1, hr.2.trans hs.2⟩
      simp [_array_free, _array_free_loop, hb, xfree]

theorem pwd_destroy_perm (pwd : Option passwd) (w : World) (L : List (Nat × Kind))
    (h : List.Perm w.live (pwd_entries pwd ++ L)) :
    List.Perm (_pwd_destroy pwd w).live L ∧ (_pwd_destroy pwd w).bad_free = w.bad_free := by
  cases pwd with
  | none => exact ⟨by simpa [pwd_entries, _pwd_destroy] using h, rfl⟩
  | some p =>
    simp only [pwd_entries, List.append_assoc] at h
    have h1 := xfree_str_perm p.pw_name w _ h
    have h2 := xfree_str_perm p.pw_passwd _ _ h1.1
    have h3 := xfree_str_perm p.pw_gecos _ _ h2.1
    have h4 := xfree_str_perm p.pw_shell _ _ h3.1
    have h5 := xfree_str_perm p.pw_dir _ _ h4.1
    have h6 := release_perm p.addr Kind.passwd _ L (by simpa using h5.1)
    exact ⟨h6.1, h6.2.trans (h5.2.trans (h4.2.trans (h3.2.trans (h2.2.trans h1.2))))⟩

theorem task_info_destroy_perm (t : task_info_t) (hl : t.srun_list.isSome = true)
    (w : World) (L : List (Nat × Kind))
    (h : List.Perm w.live (task_entries t ++ L)) :
    ∃ w1, task_info_destroy t w = some w1 ∧ List.Perm w1.live L ∧
      w1.bad_free = w.bad_free := by
  cases hs : t.srun_list with
  | none => simp [hs] at hl
  | some l =>
    have h0 : List.Perm w.live
        ((l.addr, Kind.list) :: (t.mutex, Kind.mutex) :: (t.addr, Kind.task) :: L) := by
      simpa [task_entries, hs] using h
    have h1 := release_perm l.addr Kind.list w _ h0
    have h2 := release_perm t.mutex Kind.mutex _ _ h1.1
    have h3 := release_perm t.addr Kind.task _ _ h2.1
    refine ⟨_, ?_, h3.1, h3.2.trans (h2.2.trans h1.2)⟩
    simp [task_info_destroy, list_destroy, hs, xfree]

theorem job_destroy_tasks_perm (job : slurmd_job_t) (tv : Blk task_info_t)
    (htask : job.task = some tv) (hall : ∀ t ∈ tv.elems, t.srun_list.isSome = true) :
    ∀ (k i : Nat) (w : World) (L : List (Nat × Kind)), i + k = tv.elems.length →
      List.Perm w.live (tasks_entries (tv.elems.drop i) ++ L) →
      ∃ w1, job_destroy_tasks job k i w = some w1 ∧ List.Perm w1.live L ∧
        w1.bad_free = w.bad_free := by
  intro k
  induction k with
  | zero =>
    intro i w L hik h
    have hd : tv.elems.drop i = [] := List.drop_eq_nil_of_le (by omega)
    rw [hd] at h
    exact ⟨w, rfl, by simpa [tasks_entries] using h, rfl⟩
  | succ k ih =>
    intro i w L hik h
    have hlt : i < tv.elems.length := by omega
    rw [List.drop_eq_getElem_cons hlt] at h
    simp only [tasks_entries, List.append_assoc] at h
    obtain ⟨w1, hd, hp, hb⟩ :=
      task_info_destroy_perm (tv.elems[i]) (hall _ (List.getElem_mem hlt)) w _ h
    obtain ⟨w2, hd2, hp2, hb2⟩ := ih (i + 1) w1 L (by omega) hp
    refine ⟨w2, ?_, hp2, hb2.trans hb⟩
    simp only [job_destroy_tasks, htask, List.getElem?_eq_getElem hlt, hd]
    exact hd2

theorem sruns_destroy_perm :
    ∀ (ss : List srun_info) (w : World) (L : List (Nat × Kind)),
      List.Perm w.live (sruns_entries ss ++ L) →
      List.Perm (ss.foldl (fun acc x => _srun_info_destructor x acc) w).live L ∧
        (ss.foldl (fun acc x => _srun_info_destructor x acc) w).bad_free = w.bad_free := by
  intro ss
  induction ss with
  | nil => intro w L h; exact ⟨by simpa [sruns_entries] using h, rfl⟩
  | cons s ss ih =>
    intro w L h
    simp only [sruns_entries, srun_entries, List.append_assoc] at h
    have hk : List.Perm (xfree (s.key.map srun_key_t.addr) Kind.key w).live
          ((s.addr, Kind.srun) :: (sruns_entries ss ++ L)) ∧
        (xfree (s.key.map srun_key_t.addr) Kind.key w).bad_free = w.bad_free := by
      cases hkey : s.key with
      | none => exact ⟨by simpa [xfree, hkey] using h, rfl⟩
      | some key => exact release_perm key.addr Kind.key w _ (by simpa [hkey] using h)
    have hs := release_perm s.addr Kind.srun _ _ hk.1
    have hrest := ih _ L hs.1
    simp only [List.foldl_cons, _srun_info_destructor, srun_info_destroy, xfree]
      at hrest hs hk ⊢
    exact ⟨hrest.1, hrest.2.trans (hs.2.trans hk.2)⟩

theorem objs_destroy_perm :
    ∀ (os : List Nat) (w : World) (L : List (Nat × Kind)),
      List.Perm w.live (os.map (fun o => (o, Kind.obj)) ++ L) →
      List.Perm (os.foldl (fun acc x => io_obj_destroy x acc) w).live L ∧
        (os.foldl (fun acc x => io_obj_destroy x acc) w).bad_free = w.bad_free := by
  intro os
  induction os with
  | nil => intro w L h; exact ⟨by simpa using h, rfl⟩
  | cons o os ih =>
    intro w L h
    have h1 := release_perm o Kind.obj w _ (by simpa using h)
    have h2 := ih _ L h1.1
    simp only [List.foldl_cons, io_obj_destroy] at h2 ⊢
    exact ⟨h2.1, h2.2.trans h1.2⟩

end Slurmd

namespace Slurmd

/-- On a job record as the constructors build it, with at most one environment string
and at most one argument, `job_destroy` completes and releases exactly `job_entries`,
nothing of it twice. -/
theorem job_destroy_built (job : slurmd_job_t) (w w' : World) (hb : Built job w w')
    (henv : job.envc ≤ 1) (harg : job.argc ≤ 1) :
    ∃ w'' leaked, job_destroy job w' = some w'' ∧
      List.Perm w''.live (leaked ++ w.live) ∧
      (∀ e ∈ leaked, e.2 = Kind.str ∨ e.2 = Kind.vec ∨ e.2 = Kind.fd) ∧
      leaked.countP (fun e => decide (e.2 = Kind.fd)) = 2 ∧
      leaked.countP (fun e => decide (e.2 = Kind.vec)) = 1 ∧
      leaked.countP (fun e => decide (e.2 = Kind.str)) ≤ 4 ∧
      w''.bad_free = w.bad_free := by
  obtain ⟨⟨ev, hev, hevne⟩, ⟨av, hav, havne⟩, ⟨tv, htv, hlen, hall⟩, hsr, hob,
    ⟨leaked, hperm, hk, hfd, hvec, hstr⟩, hbf⟩ := hb
  cases hsl : job.sruns with
  | none => simp [hsl] at hsr
  | some sl =>
    cases hol : job.objs with
    | none => simp [hol] at hob
    | some ol =>
      simp only [job_entries, hev, hav, htv, hsl, hol, List.append_assoc] at hperm
      obtain ⟨w1, hd1, hp1, hb1⟩ := array_free_small job.envc henv ev
        (fun h => hevne h) w' _ hperm
      obtain ⟨w2, hd2, hp2, hb2⟩ := array_free_small job.argc harg av
        (fun h => havne h) w1 _ hp1
      have h3 := pwd_destroy_perm job.pwd w2 _ hp2
      obtain ⟨w4, hd4, hp4, hb4⟩ := job_destroy_tasks_perm job tv htv hall job.ntasks 0
        (_pwd_destroy job.pwd w2) _ (by omega) (by simpa using h3.1)
      have h5 := sruns_destroy_perm sl.elems w4 _ hp4
      have h5r := release_perm sl.addr Kind.list _ _ (by simpa using h5.1)
      have h6 := objs_destroy_perm ol.elems _ _ h5r.1
      have h6r := release_perm ol.addr Kind.list _ _ (by simpa using h6.1)
      have h7 := release_perm job.addr Kind.job _ _ (by simpa using h6r.1)
      refine ⟨_, leaked, ?_, h7.1, hk, hfd, hvec, hstr, ?_⟩
      · simp only [job_destroy, to_int_of_lt job.envc (by omega),
          to_int_of_lt job.argc (by omega), hev, hav, hd1, hd2, hd4, hsl, hol,
          list_destroy, xfree]
      · rw [h7.2, h6r.2, h6.2, h5r.2, h5.2, hb4, h3.2, hb2, hb1, hbf]

theorem countP_kind_zero (k : Kind) (l : List (Nat × Kind))
    (h : ∀ e ∈ l, e.2 = Kind.str ∨ e.2 = Kind.vec ∨ e.2 = Kind.fd)
    (h1 : k ≠ Kind.str) (h2 : k ≠ Kind.vec) (h3 : k ≠ Kind.fd) :
    l.countP (fun e => decide (e.2 = k)) = 0 := by
  rw [List.countP_eq_zero]
  intro e he
  rcases h e he with h4 | h4 | h4 <;> simp [h4, Ne.symm h1, Ne.symm h2, Ne.symm h3]

end Slurmd

namespace Slurmd

/-! ## Construction: what each step enters in the ledger -/

theorem xstrdup_live (s : Option String) (w : World) :
    (xstrdup s w).2.live = str_entry (xstrdup s w).1 ++ w.live := by
  cases s <;> rfl

theorem xstrdup_bad_free (s : Option String) (w : World) :
    (xstrdup s w).2.bad_free = w.bad_free := by
  cases s <;> rfl

theorem str_entry_kind (s : Option XStr) : ∀ e ∈ str_entry s, e.2 = Kind.str := by
  cases s <;> simp [str_entry]

theorem str_entry_count_le (s : Option XStr) (p : Nat × Kind → Bool) :
    (str_entry s).countP p ≤ 1 := by
  cases s with
  | none => simp [str_entry]
  | some x =>
    simp only [str_entry, List.countP_cons, List.countP_nil]
    split <;> omega

theorem str_entry_count_other (s : Option XStr) (k : Kind) (hk : k ≠ Kind.str) :
    (str_entry s).countP (fun e => decide (e.2 = k)) = 0 := by
  cases s with
  | none => simp [str_entry]
  | some x => simp [str_entry, Ne.symm hk]

theorem str_entry_length_le (s : Option XStr) : (str_entry s).length ≤ 1 := by
  cases s <;> simp [str_entry]

/-- A list made of two descriptors, one vector and at most four strings. -/
theorem leaked_shape (a b c : Nat) (S : List (Nat × Kind))
    (hS : ∀ e ∈ S, e.2 = Kind.str) (hlen : S.length ≤ 4) :
    (∀ e ∈ (a, Kind.fd) :: (b, Kind.fd) :: (c, Kind.vec) :: S,
        e.2 = Kind.str ∨ e.2 = Kind.vec ∨ e.2 = Kind.fd) ∧
      ((a, Kind.fd) :: (b, Kind.fd) :: (c, Kind.vec) :: S).countP
          (fun e => decide (e.2 = Kind.fd)) = 2 ∧
      ((a, Kind.fd) :: (b, Kind.fd) :: (c, Kind.vec) :: S).countP
          (fun e => decide (e.2 = Kind.vec)) = 1 ∧
      ((a, Kind.fd) :: (b, Kind.fd) :: (c, Kind.vec) :: S).countP
          (fun e => decide (e.2 = Kind.str)) ≤ 4 := by
  have hfd : S.countP (fun e => decide (e.2 = Kind.fd)) = 0 := by
    rw [List.countP_eq_zero]
    intro e he
    simp [hS e he]
  have hvec : S.countP (fun e => decide (e.2 = Kind.vec)) = 0 := by
    rw [List.countP_eq_zero]
    intro e he
    simp [hS e he]
  have hstr : S.countP (fun e => decide (e.2 = Kind.str)) ≤ S.length :=
    List.countP_le_length _
  refine ⟨?_, ?_, ?_, ?_⟩
  · intro e he
    simp only [List.mem_cons] at he
    rcases he with h | h | h | h
    · rw [h]; exact Or.inr (Or.inr rfl)
    · rw [h]; exact Or.inr (Or.inr rfl)
    · rw [h]; exact Or.inr (Or.inl rfl)
    · exact Or.inl (hS e h)
  · simp [List.countP_cons, hfd]
  · simp [List.countP_cons, hvec]
  · simp only [List.countP_cons]
    simp
    omega

theorem pwd_create_perm (sys : Sys) (uid : Nat) (w : World) :
    List.Perm (_pwd_create sys uid w).2.live
        (pwd_entries (_pwd_create sys uid w).1 ++ w.live) ∧
      (_pwd_create sys uid w).2.bad_free = w.bad_free := by
  unfold _pwd_create
  cases sys.getpwuid uid with
  | none => simp [xfree, release, xmalloc, pwd_entries]
  | some ppwd =>
    refine ⟨?_, rfl⟩
    simp only [xstrdup, xmalloc, pwd_entries, str_entry, List.append_assoc,
      List.singleton_append, List.nil_append]
    rw [List.perm_iff_count]
    intro x
    simp only [List.count_cons, List.count_append, List.count_nil]
    omega

theorem array_copy_small (n : Nat) (hn : n ≤ 1) (src : Nat → String) (w : World)
    (e : Blk (Option XStr) × World) (h : _array_copy (to_int n) src w = some e) :
    e.2.live = vec_entries n (some e.1) ++ w.live ∧ e.2.bad_free = w.bad_free ∧
      (n = 1 → e.1.elems ≠ []) := by
  rw [to_int_of_lt n (by omega)] at h
  rcases Nat.le_one_iff_eq_zero_or_eq_one.mp hn with h0 | h1
  · subst h0
    simp [_array_copy, _array_copy_loop] at h
    subst h
    simp [vec_entries, strs_entries, xmalloc]
  · subst h1
    simp [_array_copy, _array_copy_loop, xstrdup] at h
    subst h
    simp [vec_entries, strs_entries, str_entry, xmalloc]

theorem job_init_task_info_spec (job : slurmd_job_t) (gid : Nat → Nat) (w : World)
    (t : slurmd_job_t × World) (h : _job_init_task_info job gid w = some t)
    (hN : job.ntasks < 2147483648) :
    ∃ tv, t.1 = { job with task := some tv } ∧ tv.addr = w.next ∧
      tv.elems.length = job.ntasks ∧
      (∀ x ∈ tv.elems, x.srun_list.isSome = true) ∧
      List.Perm t.2.live (tasks_entries tv.elems ++ (w.next, Kind.vec) :: w.live) ∧
      t.2.bad_free = w.bad_free := by
  have hnn : ¬ ((job.ntasks : Int) < 0) := by omega
  simp only [_job_init_task_info, to_int_of_lt _ hN, Int.toNat_ofNat, hnn, if_false] at h
  cases hl : _job_init_task_info_loop gid job.ntasks 0 [] (xmalloc Kind.vec w).2 with
  | none => simp [hl] at h
  | some r =>
    simp only [hl, Option.some.injEq] at h
    subst h
    obtain ⟨ts, hts, hlen, _, hall, hperm, hbf, _, _⟩ := init_loop_spec _ _ _ _ _ _ hl
    refine ⟨_, rfl, rfl, ?_, ?_, ?_, ?_⟩
    · simp [hts, hlen]
    · simpa [hts] using hall
    · simpa [hts, xmalloc] using hperm
    · simpa [xmalloc] using hbf

theorem pipe_spec (sys : Sys) (w : World) (f : (Int × Int) × World)
    (h : pipe sys w = some f) :
    f.2.live = (w.next + 1, Kind.fd) :: (w.next, Kind.fd) :: w.live ∧
      f.2.bad_free = w.bad_free := by
  unfold pipe at h
  by_cases hp : sys.pipe_ok = true
  · simp only [hp, if_true, Option.some.injEq] at h
    subst h
    exact ⟨rfl, rfl⟩
  · simp [hp] at h

end Slurmd

namespace Slurmd

theorem job_init_task_info_shape (job : slurmd_job_t) (gid : Nat → Nat) (w : World)
    (t : slurmd_job_t × World) (h : _job_init_task_info job gid w = some t) :
    ∃ tv, t.1 = { job with task := some tv } := by
  simp only [_job_init_task_info] at h
  split at h
  · exact absurd h (by simp)
  · split at h
    · exact absurd h (by simp)
    · simp only [Option.some.injEq] at h
      subst h
      exact ⟨_, rfl⟩

theorem job_create_fields (sys : Sys) (msg : launch_tasks_request_msg_t)
    (cli_addr : slurm_addr) (w w' : World) (job : slurmd_job_t)
    (h : job_create sys msg cli_addr w = some (some job, w')) :
    job.envc = msg.envc ∧ job.argc = msg.argc ∧ job.ntasks = msg.tasks_to_launch := by
  unfold job_create at h
  simp only [pwd_lt_zero_eq, Bool.false_eq_true, if_false] at h
  split at h
  · exact absurd h (by simp)
  · split at h
    · exact absurd h (by simp)
    · split at h
      · exact absurd h (by simp)
      · rename_i t ht
        obtain ⟨tv, ht1⟩ := job_init_task_info_shape _ _ _ _ ht
        split at h
        · exact absurd h (by simp)
        · simp only [Option.some.injEq, Prod.mk.injEq] at h
          obtain ⟨hj, _⟩ := h
          subst hj
          rw [ht1]
          exact ⟨rfl, rfl, rfl⟩

theorem job_create_built (sys : Sys) (msg : launch_tasks_request_msg_t)
    (cli_addr : slurm_addr) (w w' : World) (job : slurmd_job_t)
    (h : job_create sys msg cli_addr w = some (some job, w'))
    (henv : msg.envc ≤ 1) (harg : msg.argc ≤ 1) (hN : msg.tasks_to_launch < 2147483648) :
    Built job w w' := by
  unfold job_create at h
  simp only [pwd_lt_zero_eq, Bool.false_eq_true, if_false] at h
  split at h
  · exact absurd h (by simp)
  · rename_i e he
    split at h
    · exact absurd h (by simp)
    · rename_i v hv
      split at h
      · exact absurd h (by simp)
      · rename_i t ht
        split at h
        · exact absurd h (by simp)
        · rename_i f hf
          simp only [Option.some.injEq, Prod.mk.injEq] at h
          obtain ⟨hj, hw⟩ := h
          subst hj
          subst hw
          obtain ⟨tv, ht1, hta, htl, htall, htp, htb⟩ :=
            job_init_task_info_spec _ _ _ _ ht hN
          obtain ⟨hel, heb, hene⟩ := array_copy_small _ henv _ _ _ he
          obtain ⟨hvl, hvb, hvne⟩ := array_copy_small _ harg _ _ _ hv
          obtain ⟨hfl, hfb⟩ := pipe_spec _ _ _ hf
          have hp := pwd_create_perm sys (msg.uid % 4294967296) w
          rw [ht1]
          refine
            { env_ok := ⟨e.1, rfl, hene⟩, argv_ok := ⟨v.1, rfl, hvne⟩,
              task_ok := ⟨tv, rfl, htl, htall⟩, sruns_ok := rfl, objs_ok := rfl,
              ledger := ?_, bad_free := ?_ }
          · refine ⟨(t.2.next + 1, Kind.fd) :: (t.2.next, Kind.fd) ::
              ((xstrdup msg.ifname (xstrdup msg.efname (xstrdup msg.ofname
                (srun_info_create sys (some msg.credential.signature)
                  (some (sys.slurm_set_addr cli_addr msg.resp_port))
                  (some (sys.slurm_set_addr cli_addr msg.io_port))
                  (list_create (xstrdup msg.cwd v.2).2 : Blk Nat × World).2).2).2).2).2.next + 1,
                Kind.vec) ::
              (str_entry (xstrdup msg.ifname (xstrdup msg.efname (xstrdup msg.ofname
                (srun_info_create sys (some msg.credential.signature)
                  (some (sys.slurm_set_addr cli_addr msg.resp_port))
                  (some (sys.slurm_set_addr cli_addr msg.io_port))
                  (list_create (xstrdup msg.cwd v.2).2 : Blk Nat × World).2).2).2).2).1 ++
               (str_entry (xstrdup msg.efname (xstrdup msg.ofname
                (srun_info_create sys (some msg.credential.signature)
                  (some (sys.slurm_set_addr cli_addr msg.resp_port))
                  (some (sys.slurm_set_addr cli_addr msg.io_port))
                  (list_create (xstrdup msg.cwd v.2).2 : Blk Nat × World).2).2).2).1 ++
               (str_entry (xstrdup msg.ofname
                (srun_info_create sys (some msg.credential.signature)
                  (some (sys.slurm_set_addr cli_addr msg.resp_port))
                  (some (sys.slurm_set_addr cli_addr msg.io_port))
                  (list_create (xstrdup msg.cwd v.2).2 : Blk Nat × World).2).2).1 ++
                str_entry (xstrdup msg.cwd v.2).1))), ?_, leaked_shape _ _ _ _ ?_ ?_⟩
            · rw [List.perm_iff_count]
              intro x
              rw [hfl]
              simp only [List.count_cons]
              rw [htp.count_eq x]
              simp only [list_create, list_append, xmalloc, xstrdup_live, srun_info_create,
                hvl, hel, List.count_append, List.count_cons, List.count_nil,
                hp.1.count_eq x, job_entries, sruns_entries, srun_entries, List.map_nil,
                List.nil_append, zero_job]
              omega
            · intro e he
              simp only [List.mem_append] at he
              rcases he with h | h | h | h <;> exact str_entry_kind _ e h
            · simp only [List.length_append]
              have h1 := str_entry_length_le (xstrdup msg.cwd v.2).1
              have h2 := str_entry_length_le (xstrdup msg.ofname
                (srun_info_create sys (some msg.credential.signature)
                  (some (sys.slurm_set_addr cli_addr msg.resp_port))
                  (some (sys.slurm_set_addr cli_addr msg.io_port))
                  (list_create (xstrdup msg.cwd v.2).2 : Blk Nat × World).2).2).1
              have h3 := str_entry_length_le (xstrdup msg.efname (xstrdup msg.ofname
                (srun_info_create sys (some msg.credential.signature)
                  (some (sys.slurm_set_addr cli_addr msg.resp_port))
                  (some (sys.slurm_set_addr cli_addr msg.io_port))
                  (list_create (xstrdup msg.cwd v.2).2 : Blk Nat × World).2).2).2).1
              have h4 := str_entry_length_le (xstrdup msg.ifname (xstrdup msg.efname
                (xstrdup msg.ofname
                (srun_info_create sys (some msg.credential.signature)
                  (some (sys.slurm_set_addr cli_addr msg.resp_port))
                  (some (sys.slurm_set_addr cli_addr msg.io_port))
                  (list_create (xstrdup msg.cwd v.2).2 : Blk Nat × World).2).2).2).2).1
              omega
          · rw [hfb, htb]
            simp only [list_create, srun_info_create, xmalloc, xstrdup_bad_free, hvb, heb,
              hp.2]

end Slurmd

namespace Slurmd

theorem mkfilename_live (sys : Sys) (job : slurmd_job_t) (name : Option String)
    (w : World) :
    (_mkfilename sys job name w).2.live = str_entry (_mkfilename sys job name w).1 ++ w.live := by
  cases name <;> rfl

theorem mkfilename_bad_free (sys : Sys) (job : slurmd_job_t) (name : Option String)
    (w : World) : (_mkfilename sys job name w).2.bad_free = w.bad_free := by
  cases name <;> rfl

theorem mkfilename_next (sys : Sys) (job : slurmd_job_t) (name : Option String)
    (w : World) : (_mkfilename sys job name w).2.next = w.next + 1 := by
  cases name <;> rfl

theorem job_batch_fields (sys : Sys) (msg : batch_job_launch_msg_t) (w w' : World)
    (job : slurmd_job_t)
    (h : job_batch_job_create sys msg w = some (some job, w')) :
    job.envc = msg.envc ∧ job.argc = (if msg.argc > 0 then msg.argc else 2) ∧
      job.ntasks = 1 := by
  unfold job_batch_job_create at h
  simp only [pwd_lt_zero_eq, Bool.false_eq_true, if_false] at h
  split at h
  · exact absurd h (by simp)
  · split at h
    · exact absurd h (by simp)
    · split at h
      · exact absurd h (by simp)
      · rename_i t ht
        obtain ⟨tv, ht1⟩ := job_init_task_info_shape _ _ _ _ ht
        simp only [Option.some.injEq, Prod.mk.injEq] at h
        obtain ⟨hj, _⟩ := h
        subst hj
        rw [ht1]
        exact ⟨rfl, rfl, rfl⟩

theorem job_batch_built (sys : Sys) (msg : batch_job_launch_msg_t) (w w' : World)
    (job : slurmd_job_t)
    (h : job_batch_job_create sys msg w = some (some job, w'))
    (henv : msg.envc ≤ 1) (harg : msg.argc = 1) :
    Built job w w' := by
  unfold job_batch_job_create at h
  simp only [pwd_lt_zero_eq, Bool.false_eq_true, if_false] at h
  split at h
  · exact absurd h (by simp)
  · rename_i e he
    split at h
    · exact absurd h (by simp)
    · rename_i f hf
      split at h
      · exact absurd h (by simp)
      · rename_i t ht
        simp only [Option.some.injEq, Prod.mk.injEq] at h
        obtain ⟨hj, hw⟩ := h
        subst hj
        subst hw
        obtain ⟨tv, ht1, hta, htl, htall, htp, htb⟩ :=
          job_init_task_info_spec _ _ _ _ ht (by show (1 : Nat) < 2147483648; omega)
        obtain ⟨hel, heb, hene⟩ := array_copy_small _ henv _ _ _ he
        obtain ⟨hfl, hfb⟩ := pipe_spec _ _ _ hf
        have hp := pwd_create_perm sys (msg.uid % 4294967296) (xmalloc Kind.job w).2
        rw [ht1]
        generalize hpd : _pwd_create sys (msg.uid % 4294967296) (xmalloc Kind.job w).2 = p at *
        generalize hcd : xstrdup msg.work_dir p.2 = c at *
        generalize hod : _mkfilename sys _ msg.out _ = o at *
        have hcl : c.2.live = str_entry c.1 ++ p.2.live := by
          rw [← hcd]; exact xstrdup_live _ _
        have hcb : c.2.bad_free = p.2.bad_free := by
          rw [← hcd]; exact xstrdup_bad_free _ _
        have hol : o.2.live = str_entry o.1 ++ (srun_info_create sys none none none
            (list_create (list_create e.2 : Blk Nat × World).2 : Blk srun_info × World).2).2.live := by
          rw [← hod]; exact mkfilename_live _ _ _ _
        have hob : o.2.bad_free = (srun_info_create sys none none none
            (list_create (list_create e.2 : Blk Nat × World).2 : Blk srun_info × World).2).2.bad_free := by
          rw [← hod]; exact mkfilename_bad_free _ _ _ _
        generalize herd : (if msg.err.isSome = true then xstrdup msg.err o.2 else (o.1, o.2)) = er
          at *
        have herl : er.2.live
            = (if msg.err.isSome = true then str_entry er.1 else []) ++ o.2.live := by
          rw [← herd]
          cases msg.err with
          | none => simp
          | some x => simp [xstrdup_live]
        have herb : er.2.bad_free = o.2.bad_free := by
          rw [← herd]
          cases msg.err with
          | none => simp
          | some x => simp [xstrdup_bad_free]
        generalize hid : xstrdup (some "/dev/null") er.2 = i at *
        have hil : i.2.live = str_entry i.1 ++ er.2.live := by
          rw [← hid]; exact xstrdup_live _ _
        have hib : i.2.bad_free = er.2.bad_free := by
          rw [← hid]; exact xstrdup_bad_free _ _
        refine
          { env_ok := ⟨e.1, rfl, hene⟩,
            argv_ok := ⟨_, rfl, fun _ => by simp [harg]⟩,
            task_ok := ⟨tv, rfl, htl, htall⟩, sruns_ok := rfl, objs_ok := rfl,
            ledger := ?_, bad_free := ?_ }
        · refine ⟨((xmalloc Kind.vec i.2).2.next + 1, Kind.fd) ::
            ((xmalloc Kind.vec i.2).2.next, Kind.fd) :: (f.2.next, Kind.vec) ::
            (str_entry i.1 ++ ((if msg.err.isSome = true then str_entry er.1 else []) ++
              (str_entry o.1 ++ str_entry c.1))), ?_, leaked_shape _ _ _ _ ?_ ?_⟩
          · rw [List.perm_iff_count]
            intro x
            rw [htp.count_eq x]
            simp only [hfl, hil, herl, hol, hcl, hel, harg, list_create, list_append, xmalloc,
              srun_info_create, List.count_append, List.count_cons, List.count_nil,
              hp.1.count_eq x, job_entries, sruns_entries, srun_entries, vec_entries,
              strs_entries, str_entry, List.map_nil, List.nil_append, zero_job,
              Nat.lt_irrefl, Nat.zero_lt_one, if_true, List.replicate, List.take,
              gt_iff_lt]
            omega
          · intro x hx
            simp only [List.mem_append] at hx
            rcases hx with h | h | h | h
            · exact str_entry_kind _ x h
            · split at h
              · exact str_entry_kind _ x h
              · exact absurd h (List.not_mem_nil x)
            · exact str_entry_kind _ x h
            · exact str_entry_kind _ x h
          · simp only [List.length_append]
            have h1 := str_entry_length_le c.1
            have h2 := str_entry_length_le o.1
            have h3 := str_entry_length_le er.1
            have h4 := str_entry_length_le i.1
            split
            · omega
            · simp only [List.length_nil]
              omega
        · rw [htb, hfb]
          simp only [xmalloc, hib, herb, hob, srun_info_create, list_create, heb, hcb, hp.2]

end Slurmd

namespace Slurmd

/-! ## Teardown after construction -/

theorem outstanding_of_perm (k : Kind) (w w'' : World) (leaked : List (Nat × Kind))
    (h : List.Perm w''.live (leaked ++ w.live)) :
    outstanding k w''
      = leaked.countP (fun e => decide (e.2 = k)) + outstanding k w := by
  unfold outstanding
  rw [h.countP_eq, List.countP_append]

/-- Within one environment string and one argument: for a job record returned by
`job_create` or `job_batch_job_create` with `envc ≤ 1`, `argc ≤ 1` and fewer than 2^31
tasks, `job_destroy` completes and releases the environment and argument vectors with
their strings, the identity snapshot, every task record with its lock and subscriber
list, every srun endpoint with its key, both lists and the job record, none of them
twice. Two descriptors, one vector and at most four strings remain outstanding. -/
theorem job_destroy_after_create (sys : Sys) (w w' : World) (job : slurmd_job_t)
    (hc : (∃ msg cli_addr, job_create sys msg cli_addr w = some (some job, w')) ∨
      (∃ msg, job_batch_job_create sys msg w = some (some job, w')))
    (henv : job.envc ≤ 1) (harg : job.argc ≤ 1) (hN : job.ntasks < 2147483648) :
    ∃ w'', job_destroy job w' = some w'' ∧
      outstanding Kind.task w'' = outstanding Kind.task w ∧
      outstanding Kind.mutex w'' = outstanding Kind.mutex w ∧
      outstanding Kind.srun w'' = outstanding Kind.srun w ∧
      outstanding Kind.key w'' = outstanding Kind.key w ∧
      outstanding Kind.list w'' = outstanding Kind.list w ∧
      outstanding Kind.passwd w'' = outstanding Kind.passwd w ∧
      outstanding Kind.job w'' = outstanding Kind.job w ∧
      outstanding Kind.vec w'' = outstanding Kind.vec w + 1 ∧
      outstanding Kind.fd w'' = outstanding Kind.fd w + 2 ∧
      outstanding Kind.str w'' ≤ outstanding Kind.str w + 4 ∧
      w''.bad_free = w.bad_free := by
  have hb : Built job w w' := by
    rcases hc with ⟨msg, cli_addr, h⟩ | ⟨msg, h⟩
    · obtain ⟨h1, h2, h3⟩ := job_create_fields sys msg cli_addr w w' job h
      exact job_create_built sys msg cli_addr w w' job h (h1 ▸ henv) (h2 ▸ harg) (h3 ▸ hN)
    · obtain ⟨h1, h2, _⟩ := job_batch_fields sys msg w w' job h
      have ha : msg.argc = 1 := by
        rw [h2] at harg
        split at harg <;> omega
      exact job_batch_built sys msg w w' job h (h1 ▸ henv) ha
  obtain ⟨w'', leaked, hd, hperm, hk, hfd, hvec, hstr, hbf⟩ :=
    job_destroy_built job w w' hb henv harg
  refine ⟨w'', hd, ?_, ?_, ?_, ?_, ?_, ?_, ?_, ?_, ?_, ?_, hbf⟩
  · rw [outstanding_of_perm _ _ _ _ hperm, countP_kind_zero _ _ hk (by decide) (by decide)
      (by decide), Nat.zero_add]
  · rw [outstanding_of_perm _ _ _ _ hperm, countP_kind_zero _ _ hk (by decide) (by decide)
      (by decide), Nat.zero_add]
  · rw [outstanding_of_perm _ _ _ _ hperm, countP_kind_zero _ _ hk (by decide) (by decide)
      (by decide), Nat.zero_add]
  · rw [outstanding_of_perm _ _ _ _ hperm, countP_kind_zero _ _ hk (by decide) (by decide)
      (by decide), Nat.zero_add]
  · rw [outstanding_of_perm _ _ _ _ hperm, countP_kind_zero _ _ hk (by decide) (by decide)
      (by decide), Nat.zero_add]
  · rw [outstanding_of_perm _ _ _ _ hperm, countP_kind_zero _ _ hk (by decide) (by decide)
      (by decide), Nat.zero_add]
  · rw [outstanding_of_perm _ _ _ _ hperm, countP_kind_zero _ _ hk (by decide) (by decide)
      (by decide), Nat.zero_add]
  · rw [outstanding_of_perm _ _ _ _ hperm, hvec, Nat.add_comm]
  · rw [outstanding_of_perm _ _ _ _ hperm, hfd, Nat.add_comm]
  · rw [outstanding_of_perm _ _ _ _ hperm]
    omega

/-- The four-task launch request, which carries one environment string and one
argument, as an instance. -/
theorem job_destroy_after_create_witness :
    ∃ w'', job_destroy ex_launch_job ex_launch_world = some w'' ∧
      outstanding Kind.task w'' = outstanding Kind.task ex_world ∧
      outstanding Kind.mutex w'' = outstanding Kind.mutex ex_world ∧
      outstanding Kind.srun w'' = outstanding Kind.srun ex_world ∧
      outstanding Kind.key w'' = outstanding Kind.key ex_world ∧
      outstanding Kind.list w'' = outstanding Kind.list ex_world ∧
      outstanding Kind.passwd w'' = outstanding Kind.passwd ex_world ∧
      outstanding Kind.job w'' = outstanding Kind.job ex_world ∧
      outstanding Kind.vec w'' = outstanding Kind.vec ex_world + 1 ∧
      outstanding Kind.fd w'' = outstanding Kind.fd ex_world + 2 ∧
      outstanding Kind.str w'' ≤ outstanding Kind.str ex_world + 4 ∧
      w''.bad_free = ex_world.bad_free :=
  job_destroy_after_create ex_sys ex_world ex_launch_world ex_launch_job
    (Or.inl ⟨ex_launch, ex_cli, rfl⟩) (by decide) (by decide) (by decide)

/-- With two or more slots `_array_free` has no defined result: its first step
evaluates `*array[n - 1]` with `n - 1 ≥ 1`, an element outside the pointer that `array`
points at. -/
theorem array_free_undefined (n : Nat) (hn : 2 ≤ n) (v : Option (Blk (Option XStr)))
    (w : World) : _array_free (n : Int) v w = none := by
  obtain ⟨m, hm⟩ : ∃ m, n = m + 2 := ⟨n - 2, by omega⟩
  subst hm
  simp [_array_free, _array_free_loop]

set_option maxRecDepth 8000 in
/-- C7 (the code at the failing input): `job_create` accepts a launch request with two
environment strings, and on the record it returns `job_destroy` has no defined result:
`_array_free` evaluates `*array[1]`, which is not `env[1]` but lies outside the pointer
`job->env`, so `env[1]` is never handed to `xfree`. The same holds of the record
`job_batch_job_create` returns for a request without argument count (`argc = 2`). And
where `job_destroy` does complete, on the record of the launch request with one
environment string, the two descriptors of the pipe are still outstanding where none
was before. -/
theorem job_destroy_misses_vector_elements :
    (job_create ex_sys ex_launch_two_env ex_cli ex_world).map
        (fun r => r.1.map (fun j => (j.envc, (job_destroy j r.2).isSome)))
      = some (some (2, false)) ∧
    (job_batch_job_create ex_sys ex_batch_noargs ex_world).map
        (fun r => r.1.map (fun j => (j.argc, (job_destroy j r.2).isSome)))
      = some (some (2, false)) ∧
    outstanding Kind.fd ex_world = 0 ∧
    (job_destroy ex_launch_job ex_launch_world).map (fun w => outstanding Kind.fd w)
      = some 2 := by
  decide

end Slurmd
